import Mathlib

/-!
Verification development for the audit core of a design-system plugin:
a tree-to-flat snapshot model (`src/structure/snapshot.ts`), a reference
catalog resolver (`src/reference/library.ts`), and a structural diff
engine (`src/structure/diff.ts`).

Modelling conventions for the TypeScript source:
* JavaScript numbers are modelled as `ℚ` (all comparisons in the code are
  exact equality or rounding to two decimals; the claims use values far
  from binary-float ties).
* `string | null | undefined` fields are modelled as `Option String`;
  JavaScript truthiness of such a value (`null`, `undefined` and `""` are
  falsy) is `tstr`.
* The injected label resolvers return `string | null`; an absent resolver
  is observationally identical to one constantly returning `null`
  (`null || x` is `x`, and the guarded assignments keep a `null`), so
  resolvers are modelled as total functions `String → Option String`.
* `JSON.stringify` equality on radius values is modelled as structural
  equality (both sides are produced by the same serializer over the fixed
  field order `topLeft, topRight, bottomRight, bottomLeft`).
* A JavaScript `Set<string>` iterated with `Array.from` is an
  insertion-ordered deduplicating list; a `Map` built with `set` keeps the
  first-insertion position of a key and its last value.
-/

/-- JS truthiness of a `string | null | undefined` value: `null`,
`undefined` and the empty string are falsy. -/
def tstr : Option String → Bool
  | none => false
  | some s => !(s == "")

/-- Format an optional string, `x ?? "—"` in the source templates. -/
def optStr (o : Option String) : String := o.getD "—"

/-- Rendering of a JS number in a template literal.  The claims only
evaluate it on integral values, where JS prints the bare integer. -/
def numStr (q : ℚ) : String :=
  if q.den = 1 then toString q.num else toString q

/-- Format an optional number, `x ?? "—"` in the source templates. -/
def optNum (o : Option ℚ) : String :=
  match o with
  | none => "—"
  | some q => numStr q

/-- `Number(x.toFixed(2))`: round to two decimal places, ties upward
(ECMA`s "pick the larger n"), i.e. `⌊100q + 1/2⌋ / 100`. -/
def round2 (q : ℚ) : ℚ := (Rat.floor (q * 100 + 1 / 2) : ℚ) / 100

/-! ## Data model (`src/types/structures.ts`) -/

/-- `DSPadding`: four nullable numbers. -/
structure DSPadding where
  top : Option ℚ
  right : Option ℚ
  bottom : Option ℚ
  left : Option ℚ
  deriving DecidableEq, Repr

/-- Per-side padding token bindings. -/
structure DSPaddingTokens where
  top : Option String
  right : Option String
  bottom : Option String
  left : Option String
  deriving DecidableEq, Repr

/-- `DSNodeLayout` (the fields the diff engine reads). -/
structure DSNodeLayout where
  padding : Option DSPadding := none
  paddingTokens : Option DSPaddingTokens := none
  itemSpacing : Option ℚ := none
  itemSpacingToken : Option String := none
  deriving DecidableEq, Repr

/-- `DSNodeStyles`: resolved style keys per aspect; `styles?.fill?.styleKey`
collapses `null`/`undefined` at every level, so one `Option String` per
aspect is the faithful observation. -/
structure DSNodeStyles where
  fill : Option String := none
  stroke : Option String := none
  text : Option String := none
  deriving DecidableEq, Repr

/-- `DSPaintInfo`. -/
structure DSPaintInfo where
  color : Option String := none
  token : Option String := none
  deriving DecidableEq, Repr

/-- `DSStrokeInfo extends DSPaintInfo`. -/
structure DSStrokeInfo where
  color : Option String := none
  token : Option String := none
  weight : Option ℚ := none
  align : Option String := none
  deriving DecidableEq, Repr

/-- `DSRadii = number | DSRadiiValues`. -/
inductive DSRadii where
  | scalar (value : ℚ)
  | corners (topLeft topRight bottomRight bottomLeft : ℚ)
  deriving DecidableEq, Repr

/-- `DSInstanceInfo`. -/
structure DSInstanceInfo where
  componentKey : String
  deriving DecidableEq, Repr

/-- `DSTextContent` (payload irrelevant to the claims, kept as the literal
characters plus metrics). -/
structure DSTextContent where
  characters : Option String := none
  deriving DecidableEq, Repr

/-- `DSEffect`. -/
structure DSEffect where
  type : String
  radius : Option ℚ := none
  deriving DecidableEq, Repr

/-- `DSStructureNode`: one flattened visual element. -/
structure DSStructureNode where
  id : Nat
  nodeId : Option String := none
  parentId : Option Nat := none
  path : String
  type : String := ""
  name : String := ""
  visible : Bool := true
  styles : Option DSNodeStyles := none
  fill : Option DSPaintInfo := none
  stroke : Option DSStrokeInfo := none
  layout : Option DSNodeLayout := none
  opacity : Option ℚ := none
  opacityToken : Option String := none
  radius : Option DSRadii := none
  radiusToken : Option String := none
  effects : Option (List DSEffect) := none
  componentInstance : Option DSInstanceInfo := none
  text : Option DSTextContent := none
  deriving DecidableEq, Repr

/-! ## Diff engine (`src/structure/diff.ts`) -/

/-- `DiffEntry`. -/
structure DiffEntry where
  message : String
  nodePath : String
  nodeName : String
  nodeId : Option String
  visible : Bool
  deriving DecidableEq, Repr

/-- The accumulating result: ordered diff list and insertion-ordered
deduplicated issue set. -/
structure DiffState where
  diffs : List DiffEntry := []
  issues : List String := []
  deriving DecidableEq, Repr

/-- `issueSet.add(message)`: insertion-ordered set insert. -/
def addIssue (st : DiffState) (message : String) : DiffState :=
  if message ∈ st.issues then st
  else { st with issues := st.issues ++ [message] }

/-- `pushDiff(diffs, node, path, message)`. -/
def pushDiff (st : DiffState) (node : DSStructureNode) (path message : String) :
    DiffState :=
  { st with
    diffs := st.diffs ++
      [{ message := message
         nodePath := path
         nodeName := node.name
         nodeId := node.nodeId
         visible := node.visible }] }

/-- The injected diff options: strict flag plus the three label
resolvers (an absent resolver is the constantly-`none` function). -/
structure DiffOptions where
  strict : Bool := false
  resolveTokenLabel : String → Option String := fun _ => none
  resolveColorLabel : String → Option String := fun _ => none
  resolveStyleLabel : String → Option String := fun _ => none

/-- `formatToken` as used in `comparePaint`/`compareStroke`:
falsy token ↦ `null`; otherwise `resolveTokenLabel(token) || token`. -/
def fmtTok (resolve : String → Option String) (token : Option String) :
    Option String :=
  match token with
  | none => none
  | some t =>
    if t = "" then none
    else
      match resolve t with
      | some s => if s = "" then some t else some s
      | none => some t

/-- The four padding sides, iterated in source order. -/
inductive Side where
  | top | right | bottom | left
  deriving DecidableEq, Repr

/-- `label(side)`: the map is the identity on the four sides. -/
def Side.label : Side → String
  | .top => "top"
  | .right => "right"
  | .bottom => "bottom"
  | .left => "left"

def DSPadding.side (p : DSPadding) : Side → Option ℚ
  | .top => p.top
  | .right => p.right
  | .bottom => p.bottom
  | .left => p.left

def DSPaddingTokens.side (p : DSPaddingTokens) : Side → Option String
  | .top => p.top
  | .right => p.right
  | .bottom => p.bottom
  | .left => p.left

/-- One iteration of the `for (const side of sides)` loop in
`comparePadding`. -/
def comparePaddingSide (path : String) (actualNode : DSStructureNode)
    (actual reference : Option DSPadding)
    (actualTokens referenceTokens : Option DSPaddingTokens)
    (strict : Bool) (side : Side) (st : DiffState) : DiffState :=
  let a : Option ℚ := actual.bind (·.side side)
  let b : Option ℚ := reference.bind (·.side side)
  match b with
  | none => st
  | some bv =>
    if strict && a.isNone then
      addIssue st
        ("Нет данных для padding " ++ side.label ++ " в снапшоте для «" ++
          path ++ "»")
    else if a ≠ some bv then
      pushDiff st actualNode path
        ("Паддинг " ++ side.label ++ ": " ++ numStr bv ++ " → " ++ optNum a)
    else
      let refToken := referenceTokens.bind (·.side side)
      if tstr refToken then
        let actualToken := actualTokens.bind (·.side side)
        if strict && !tstr actualToken then
          addIssue st
            ("Нет данных для token padding " ++ side.label ++
              " в снапшоте для «" ++ path ++ "»")
        else if actualToken ≠ refToken then
          pushDiff st actualNode path
            ("Token padding " ++ side.label ++ ": " ++ optStr refToken ++
              " → " ++ optStr actualToken)
        else st
      else st

/-- `comparePadding`. -/
def comparePadding (path : String) (actualNode : DSStructureNode)
    (actual reference : Option DSPadding)
    (actualTokens referenceTokens : Option DSPaddingTokens)
    (strict : Bool) (st : DiffState) : DiffState :=
  [Side.top, Side.right, Side.bottom, Side.left].foldl
    (fun acc side =>
      comparePaddingSide path actualNode actual reference actualTokens
        referenceTokens strict side acc)
    st

/-- `compareStyle`. -/
def compareStyle (lab path : String) (actualNode : DSStructureNode)
    (actual reference : Option String)
    (resolveStyleLabel : String → Option String) (st : DiffState) :
    DiffState :=
  match reference with
  | none => st
  | some _ =>
    if actual = reference then st
    else
      let formatStyle : Option String → String := fun styleKey =>
        if tstr styleKey then
          optStr (fmtTok resolveStyleLabel styleKey)
        else "—"
      pushDiff st actualNode path
        ("Стиль " ++ lab ++ ": " ++ formatStyle reference ++ " → " ++
          formatStyle actual)

/-- `!actual || (!actual.color && !actual.token)`: the strict-mode
"actual side has no paint data" guard of `comparePaint`. -/
def paintMissing : Option DSPaintInfo → Bool
  | none => true
  | some a => !tstr a.color && !tstr a.token

/-- The label/color comparison chain of `comparePaint`, after the exact
token-id short-circuit, over the two resolved token labels and the two
literal colors. -/
def comparePaintLabels (lab path : String) (actualNode : DSStructureNode)
    (referenceTokenLabel actualTokenLabel referenceColor actualColor :
      Option String) (st : DiffState) : DiffState :=
  if tstr referenceTokenLabel && tstr actualTokenLabel then
    if referenceTokenLabel = actualTokenLabel then st
    else
      pushDiff st actualNode path
        (lab ++ ": " ++ optStr referenceTokenLabel ++ " → token: " ++
          optStr actualTokenLabel)
  else if tstr actualColor && tstr referenceTokenLabel then
    pushDiff st actualNode path
      (lab ++ ": " ++ optStr referenceTokenLabel ++ " → " ++
        optStr actualColor)
  else if tstr referenceColor then
    if tstr actualTokenLabel then
      pushDiff st actualNode path
        (lab ++ ": " ++ optStr referenceColor ++ " → token: " ++
          optStr actualTokenLabel)
    else if referenceColor = actualColor then st
    else
      pushDiff st actualNode path
        (lab ++ ": " ++ optStr referenceColor ++ " → " ++
          optStr actualColor)
  else if tstr referenceTokenLabel || tstr actualTokenLabel then
    if referenceTokenLabel = actualTokenLabel then st
    else
      pushDiff st actualNode path
        (lab ++ ": " ++ optStr referenceTokenLabel ++ " → token: " ++
          optStr actualTokenLabel)
  else st

/-- `comparePaint`: multi-tier paint comparison (token-id short-circuit,
label resolution, literal color fallback). -/
def comparePaint (lab path : String) (actualNode : DSStructureNode)
    (actual reference : Option DSPaintInfo) (strict : Bool)
    (resolveTokenLabel resolveColorLabel : String → Option String)
    (st : DiffState) : DiffState :=
  match reference with
  | none => st
  | some ref =>
    if !tstr ref.color && !tstr ref.token then st
    else if strict && paintMissing actual then
      addIssue st ("Нет данных для " ++ lab ++ " в снапшоте для «" ++ path ++ "»")
    else
      let actualToken := actual.bind (·.token)
      let referenceToken := ref.token
      let actualColor := actual.bind (·.color)
      let referenceColor := ref.color
      -- Prefer exact token ID equality; labels can differ across catalogs.
      if tstr actualToken && tstr referenceToken && actualToken = referenceToken
      then st
      else
        let referenceTokenLabel0 := fmtTok resolveTokenLabel referenceToken
        let actualTokenLabel := fmtTok resolveTokenLabel actualToken
        let referenceTokenLabel :=
          if !tstr referenceTokenLabel0 && tstr referenceColor then
            resolveColorLabel (referenceColor.getD "")
          else referenceTokenLabel0
        comparePaintLabels lab path actualNode referenceTokenLabel
          actualTokenLabel referenceColor actualColor st

/-- Projection `DSStrokeInfo → DSPaintInfo` (the fields `comparePaint`
reads from a stroke). -/
def strokeToPaint (s : DSStrokeInfo) : DSPaintInfo :=
  { color := s.color, token := s.token }

/-- The target label of the added-stroke customization message
(`tokenLabel ? ... : colorLabel ? ... : actualColor ?? '—'`). -/
def strokeCustomTarget (resolveTokenLabel resolveColorLabel :
    String → Option String) (actualToken actualColor : Option String) :
    String :=
  let tokenLabel := fmtTok resolveTokenLabel actualToken
  let colorLabel :=
    if !tstr tokenLabel && tstr actualColor then
      resolveColorLabel (actualColor.getD "")
    else none
  if tstr tokenLabel then "token: " ++ optStr tokenLabel
  else if tstr colorLabel then "token: " ++ optStr colorLabel
  else optStr actualColor

/-- `compareStroke`. -/
def compareStroke (path : String) (actualNode : DSStructureNode)
    (actual reference : Option DSStrokeInfo) (strict : Bool)
    (resolveTokenLabel resolveColorLabel : String → Option String)
    (st : DiffState) : DiffState :=
  match reference with
  | none =>
    let actualToken := actual.bind (·.token)
    let actualColor := actual.bind (·.color)
    let actualWeight := actual.bind (·.weight)
    let hasActualStroke :=
      (tstr actualToken || tstr actualColor) &&
        (match actualWeight with
         | some w => decide (0 < w)
         | none => false)
    if hasActualStroke then
      -- Reference has no stroke, but actual has one — treat as customization.
      pushDiff st actualNode path
        ("Обводка: — → " ++
          strokeCustomTarget resolveTokenLabel resolveColorLabel actualToken
            actualColor)
    else st
  | some ref =>
    let st :=
      comparePaint "обводка" path actualNode (actual.map strokeToPaint)
        (some (strokeToPaint ref)) strict resolveTokenLabel resolveColorLabel
        st
    match ref.weight with
    | none => st
    | some refWeight =>
      let actualWeight := actual.bind (·.weight)
      if strict && actualWeight.isNone then
        addIssue st
          ("Нет данных для толщины обводки в снапшоте для «" ++ path ++ "»")
      else if actualWeight ≠ some refWeight then
        pushDiff st actualNode path
          ("Толщина обводки: " ++ numStr refWeight ++ " → " ++
            optNum actualWeight)
      else st

/-- `formatRadius`. -/
def formatRadius : Option DSRadii → String
  | none => "—"
  | some (.scalar v) => numStr v
  | some (.corners tl tr br bl) =>
    "(" ++ numStr tl ++ ", " ++ numStr tr ++ ", " ++ numStr br ++ ", " ++
      numStr bl ++ ")"

/-- `compareRadius`.  `JSON.stringify` equality on `DSRadii | null` is
structural equality here (fixed serializer, fixed field order). -/
def compareRadius (path : String) (actualNode : DSStructureNode)
    (actual reference : Option DSRadii)
    (actualToken referenceToken : Option String) (strict : Bool)
    (st : DiffState) : DiffState :=
  match reference with
  | none => st
  | some _ =>
    if strict && actual.isNone then
      addIssue st ("Нет данных для скруглений в снапшоте для «" ++ path ++ "»")
    else
      let st :=
        if tstr referenceToken then
          if strict && !tstr actualToken then
            addIssue st
              ("Нет данных для token radius в снапшоте для «" ++ path ++ "»")
          else if actualToken ≠ referenceToken then
            pushDiff st actualNode path
              ("Token radius: " ++ optStr referenceToken ++ " → " ++
                optStr actualToken)
          else st
        else st
      if actual = reference then st
      else
        pushDiff st actualNode path
          ("Скругления: " ++ formatRadius reference ++ " → " ++
            formatRadius actual)

/-- `compareOpacity`. -/
def compareOpacity (path : String) (actualNode : DSStructureNode)
    (actual reference : Option ℚ)
    (actualToken referenceToken : Option String) (strict : Bool)
    (st : DiffState) : DiffState :=
  match reference with
  | none => st
  | some refValue =>
    if strict && actual.isNone then
      addIssue st
        ("Нет данных для прозрачности в снапшоте для «" ++ path ++ "»")
    else
      let normalizedActual := actual.map round2
      let normalizedReference : Option ℚ := some (round2 refValue)
      let st :=
        if tstr referenceToken then
          if strict && !tstr actualToken then
            addIssue st
              ("Нет данных для token opacity в снапшоте для «" ++ path ++ "»")
          else if actualToken ≠ referenceToken then
            pushDiff st actualNode path
              ("Token opacity: " ++ optStr referenceToken ++ " → " ++
                optStr actualToken)
          else st
        else st
      if normalizedActual = normalizedReference then st
      else
        pushDiff st actualNode path
          ("Прозрачность: " ++ optNum normalizedReference ++ " → " ++
            optNum normalizedActual)

/-- `compareNode`: all per-attribute comparisons for one shared path, in
source order. -/
def compareNode (path : String) (actual reference : DSStructureNode)
    (opts : DiffOptions) (st : DiffState) : DiffState :=
  let actualLayout := actual.layout.getD {}
  let referenceLayout := reference.layout.getD {}
  let st :=
    comparePadding path actual actualLayout.padding referenceLayout.padding
      actualLayout.paddingTokens referenceLayout.paddingTokens opts.strict st
  let st :=
    match referenceLayout.itemSpacing with
    | none => st
    | some refSpacing =>
      if actualLayout.itemSpacing ≠ some refSpacing then
        if opts.strict && actualLayout.itemSpacing.isNone then
          addIssue st
            ("Нет данных для itemSpacing в снапшоте для «" ++ path ++ "»")
        else
          pushDiff st actual path
            ("Отступ между элементами: " ++ numStr refSpacing ++ " → " ++
              optNum actualLayout.itemSpacing)
      else st
  let st :=
    if tstr referenceLayout.itemSpacingToken then
      let actualToken := actualLayout.itemSpacingToken
      if opts.strict && !tstr actualToken then
        addIssue st
          ("Нет данных для token itemSpacing в снапшоте для «" ++ path ++ "»")
      else if actualToken ≠ referenceLayout.itemSpacingToken then
        pushDiff st actual path
          ("Token itemSpacing: " ++ optStr referenceLayout.itemSpacingToken ++
            " → " ++ optStr actualToken)
      else st
    else st
  let st :=
    compareStyle "заливка" path actual (actual.styles.bind (·.fill))
      (reference.styles.bind (·.fill)) opts.resolveStyleLabel st
  let st :=
    compareStyle "обводка" path actual (actual.styles.bind (·.stroke))
      (reference.styles.bind (·.stroke)) opts.resolveStyleLabel st
  let st :=
    compareStyle "текст" path actual (actual.styles.bind (·.text))
      (reference.styles.bind (·.text)) opts.resolveStyleLabel st
  let st :=
    comparePaint "заливка" path actual actual.fill reference.fill opts.strict
      opts.resolveTokenLabel opts.resolveColorLabel st
  let st :=
    compareStroke path actual actual.stroke reference.stroke opts.strict
      opts.resolveTokenLabel opts.resolveColorLabel st
  let st :=
    compareRadius path actual actual.radius reference.radius
      actual.radiusToken reference.radiusToken opts.strict st
  compareOpacity path actual actual.opacity reference.opacity
    actual.opacityToken reference.opacityToken opts.strict st

/-- JS `Map.set` on an association list: replace the value in place when
the key exists, otherwise append. -/
def jsMapSet (entries : List (String × DSStructureNode)) (key : String)
    (value : DSStructureNode) : List (String × DSStructureNode) :=
  match entries with
  | [] => [(key, value)]
  | (k, v) :: rest =>
    if k = key then (k, value) :: rest
    else (k, v) :: jsMapSet rest key value

/-- `new Map(list.map((node) => [node.path, node]))`. -/
def buildPathMap (nodes : List DSStructureNode) :
    List (String × DSStructureNode) :=
  nodes.foldl (fun acc node => jsMapSet acc node.path node) []

/-- `map.get(key)`. -/
def jsMapGet (entries : List (String × DSStructureNode)) (key : String) :
    Option DSStructureNode :=
  match entries with
  | [] => none
  | (k, v) :: rest => if k = key then some v else jsMapGet rest key

/-- `diffStructures(actual, reference, options)`. -/
def diffStructures (actual reference : List DSStructureNode)
    (opts : DiffOptions) : DiffState :=
  let actualMap := buildPathMap actual
  let referenceMap := buildPathMap reference
  referenceMap.foldl
    (fun st entry =>
      match jsMapGet actualMap entry.1 with
      | none => st
      | some node => compareNode entry.1 node entry.2 opts st)
    {}

/-! ## Catalog resolver (`src/reference/library.ts`) -/

/-- `DSStructureNodePatch`: `Partial<Pick<DSStructureNode, ...>>`.  An
outer `some` means the key is present in the patch object (and is
assigned wholesale by `Object.assign`). -/
structure DSStructureNodePatch where
  path : Option String := none
  type : Option String := none
  name : Option String := none
  visible : Option Bool := none
  styles : Option (Option DSNodeStyles) := none
  layout : Option (Option DSNodeLayout) := none
  opacity : Option (Option ℚ) := none
  radius : Option (Option DSRadii) := none
  effects : Option (Option (List DSEffect)) := none
  componentInstance : Option (Option DSInstanceInfo) := none
  text : Option (Option DSTextContent) := none
  deriving DecidableEq, Repr

/-- `Object.assign(target, patch.value)`: shallow per-attribute merge —
every key present in the patch replaces the target's attribute wholesale.
The patch type cannot mention `id`, `parentId`, `nodeId`, `fill`,
`stroke` or the token fields, so those are always kept. -/
def applyPatchValue (n : DSStructureNode) (p : DSStructureNodePatch) :
    DSStructureNode :=
  { n with
    path := p.path.getD n.path
    type := p.type.getD n.type
    name := p.name.getD n.name
    visible := p.visible.getD n.visible
    styles := p.styles.getD n.styles
    layout := p.layout.getD n.layout
    opacity := p.opacity.getD n.opacity
    radius := p.radius.getD n.radius
    effects := p.effects.getD n.effects
    componentInstance := p.componentInstance.getD n.componentInstance
    text := p.text.getD n.text }

/-- `DSVariantStructurePatch`. -/
inductive DSVariantStructurePatch where
  | update (id : Nat) (value : DSStructureNodePatch)
  | add (node : DSStructureNode)
  | remove (id : Nat)
  deriving DecidableEq, Repr

/-- JS `Map.set` on number keys. -/
def natMapSet (entries : List (Nat × Nat)) (key value : Nat) :
    List (Nat × Nat) :=
  match entries with
  | [] => [(key, value)]
  | (k, v) :: rest =>
    if k = key then (k, value) :: rest
    else (k, v) :: natMapSet rest key value

/-- `map.get(key)` on number keys. -/
def natMapGet (entries : List (Nat × Nat)) (key : Nat) : Option Nat :=
  match entries with
  | [] => none
  | (k, v) :: rest => if k = key then some v else natMapGet rest key

/-- `map.delete(key)` on number keys. -/
def natMapDelete (entries : List (Nat × Nat)) (key : Nat) :
    List (Nat × Nat) :=
  match entries with
  | [] => []
  | (k, v) :: rest =>
    if k = key then rest else (k, v) :: natMapDelete rest key

/-- A fallback node for out-of-range heap reads (never reached under the
arena invariants). -/
def dummyNode : DSStructureNode := { id := 0, path := "" }

/-- The mutable state of `buildStructureFromPatches`.  JavaScript object
identity is modelled arena-style: `heap` stores every allocated node,
`order` is the `nodes` array (as references into the heap) and `index`
is the `nodeMap` (id → reference).  `Object.assign` mutating a node that
the array and the map share is a single heap write. -/
structure PatchArena where
  heap : List DSStructureNode
  order : List Nat
  index : List (Nat × Nat)
  deriving Repr

/-- One iteration of the `for (const patch of patches)` loop. -/
def applyPatchStep (arena : PatchArena) (patch : DSVariantStructurePatch) :
    PatchArena :=
  match patch with
  | .update id value =>
    match natMapGet arena.index id with
    | none => arena
    | some r =>
      { arena with
        heap := arena.heap.set r (applyPatchValue (arena.heap.getD r dummyNode) value) }
  | .remove id =>
    { arena with
      index := natMapDelete arena.index id
      order := arena.order.eraseP (fun r => (arena.heap.getD r dummyNode).id = id) }
  | .add node =>
    let r := arena.heap.length
    { heap := arena.heap ++ [node]
      order := arena.order ++ [r]
      index := natMapSet arena.index node.id r }

/-- The arena after cloning the base: the `nodes` array holds one fresh
object per base node, and `nodeMap` indexes them by id in array order. -/
def initArena (base : List DSStructureNode) : PatchArena :=
  { heap := base
    order := List.range base.length
    index := (List.range base.length).foldl
      (fun acc r => natMapSet acc ((base.getD r dummyNode).id) r) [] }

/-- `buildStructureFromPatches(base, patches)`. -/
def buildStructureFromPatches (base : List DSStructureNode)
    (patches : List DSVariantStructurePatch) : List DSStructureNode :=
  let arena := patches.foldl applyPatchStep (initArena base)
  arena.order.map (fun r => arena.heap.getD r dummyNode)

/-- `LibraryComponentVariant`. -/
structure LibraryComponentVariant where
  key : String
  id : String := ""
  name : String := ""
  deriving DecidableEq, Repr

/-- `LibraryComponent` (the fields `resolveStructure` and the validation
reads; `structure` is a Lean keyword, rendered `structure'`). -/
structure LibraryComponent where
  key : Option String := none
  structure' : Option (List DSStructureNode) := none
  variants : Option (List LibraryComponentVariant) := none
  variantStructures :
    Option (List (String × List DSVariantStructurePatch)) := none
  deriving Repr

/-- `component.variantStructures[variantKey]` (`Record` lookup; keys are
unique after JSON parsing). -/
def recordGet (entries : List (String × List DSVariantStructurePatch))
    (key : String) : Option (List DSVariantStructurePatch) :=
  match entries with
  | [] => none
  | (k, v) :: rest => if k = key then some v else recordGet rest key

/-- `cloneStructure` (`JSON.parse(JSON.stringify(...))` per node): a value
copy. -/
def cloneStructure (nodes : List DSStructureNode) : List DSStructureNode :=
  nodes.map id

/-- `resolveStructure(component, variantKey)`.  The guard
`variantKey && component.variantStructures && component.variantStructures[variantKey]`
is truthiness: an empty string key fails, an empty patch array (a truthy
object) passes. -/
def resolveStructure (component : Option LibraryComponent)
    (variantKey : Option String) : Option (List DSStructureNode) :=
  match component with
  | none => none
  | some c =>
    let patchesForVariant : Option (List DSVariantStructurePatch) :=
      if tstr variantKey then
        match c.variantStructures with
        | none => none
        | some vs => recordGet vs (variantKey.getD "")
      else none
    match patchesForVariant with
    | some patches =>
      some (buildStructureFromPatches (c.structure'.getD []) patches)
    | none =>
      match c.structure' with
      | some base => if 0 < base.length then some (cloneStructure base) else none
      | none => none

/-! ### Patch application, specification side

`applyPatchesSpec` restates `resolveStructure`'s patch semantics the way
the specification words it: clone the base, then in array order `update`
merges a partial attribute bag into the node with the given id, `remove`
deletes that node, and `add` appends a deep clone (the id index is
determined by the list, so it is left implicit). -/

def applyOnePatchSpec (nodes : List DSStructureNode)
    (patch : DSVariantStructurePatch) : List DSStructureNode :=
  match patch with
  | .update id value =>
    nodes.map (fun n => if n.id = id then applyPatchValue n value else n)
  | .remove id => nodes.eraseP (fun n => n.id = id)
  | .add node => nodes ++ [node]

def applyPatchesSpec (base : List DSStructureNode)
    (patches : List DSVariantStructurePatch) : List DSStructureNode :=
  patches.foldl applyOnePatchSpec base

/-- Well-formedness of a patch list against the evolving set of node ids:
every `add` introduces an id not currently present (the claim's "later
patches may target ids introduced by earlier adds" presumes ids stay
unambiguous). -/
def wfPatches (ids : List Nat) : List DSVariantStructurePatch → Prop
  | [] => True
  | .update _ _ :: rest => wfPatches ids rest
  | .remove id :: rest => wfPatches (ids.erase id) rest
  | .add node :: rest => node.id ∉ ids ∧ wfPatches (ids ++ [node.id]) rest

instance : ∀ ids ps, Decidable (wfPatches ids ps) := fun ids ps => by
  induction ps generalizing ids with
  | nil => exact .isTrue trivial
  | cons p rest ih =>
    cases p with
    | update i v => exact ih ids
    | remove i => exact ih (ids.erase i)
    | add n =>
      have := ih (ids ++ [n.id])
      exact instDecidableAnd

/-! ## Snapshot model (`src/structure/snapshot.ts`)

`snapshotTree` walks the host scene tree.  The host node (an external
collaborator) is modelled by the fields the walk itself reads: the name,
the self-visibility flag and the children sequence; the per-node
attribute projections of `snapshotNode` are pure per-node reads of the
host object and do not interact with ids, paths or ordering.

The `async` structure matters: `walk` assigns `id = nextId++`
synchronously when it is called, suspends on `await snapshotNode`, and
only after resuming pushes its record and spawns its children's walks
(which in turn assign their ids synchronously, in child order).  Sibling
subtrees resolve in an order chosen by the host's promise scheduling, so
the walk is modelled as a small-step system over a pool of suspended
tasks with an arbitrary schedule choosing which task resumes next. -/

inductive SceneTree where
  | mk (name : String) (selfVisible : Bool) (children : List SceneTree)

def SceneTree.name : SceneTree → String
  | .mk n _ _ => n

def SceneTree.selfVisible : SceneTree → Bool
  | .mk _ v _ => v

def SceneTree.children : SceneTree → List SceneTree
  | .mk _ _ c => c

mutual

/-- Number of nodes of a tree. -/
def SceneTree.size : SceneTree → Nat
  | .mk _ _ children => 1 + SceneTree.sizeList children

/-- Total number of nodes of a forest. -/
def SceneTree.sizeList : List SceneTree → Nat
  | [] => 0
  | t :: ts => SceneTree.size t + SceneTree.sizeList ts

end

/-- `makePath(parent, name)`. -/
def makePath (parent name : String) : String :=
  if parent = "" then name else parent ++ " / " ++ name

/-- A suspended `walk` call: the id has been assigned and
`effectiveVisible` computed, `await snapshotNode` has not yet resumed. -/
structure PTask where
  tree : SceneTree
  parentPath : String
  parentId : Option Nat
  id : Nat
  visible : Bool

/-- The record `snapshotNode` produces for a task, restricted to the
fields the walk computes itself (`id`, `parentId`, `path`, `type`,
`name`, `visible`); the remaining attribute extractions are independent
per-node projections of the host object. -/
def mkSnap (t : PTask) : DSStructureNode :=
  { id := t.id
    parentId := t.parentId
    path := makePath t.parentPath t.tree.name
    name := t.tree.name
    visible := t.visible }

def defaultTask : PTask :=
  { tree := .mk "" true [], parentPath := "", parentId := none, id := 0,
    visible := true }

/-- Spawn the walks of `children` in order: each assigns the next id
synchronously and suspends. -/
def spawnChildren (children : List SceneTree) (parentPath : String)
    (parentId : Nat) (parentVisible : Bool) (nextId : Nat) :
    List PTask × Nat :=
  match children with
  | [] => ([], nextId)
  | child :: rest =>
    let task : PTask :=
      { tree := child
        parentPath := parentPath
        parentId := some parentId
        id := nextId
        visible := parentVisible && child.selfVisible }
    let (tasks, finalId) :=
      spawnChildren rest parentPath parentId parentVisible (nextId + 1)
    (task :: tasks, finalId)

/-- The in-flight state of a snapshot: the id counter, the list built so
far, and the pool of suspended walks. -/
structure WalkState where
  nextId : Nat
  list : List DSStructureNode
  pending : List PTask

/-- Resume one suspended walk (chosen by `choice`): push its record, then
spawn its children. -/
def walkStep (s : WalkState) (choice : Nat) : WalkState :=
  match s.pending with
  | [] => s
  | _ :: _ =>
    let i := choice % s.pending.length
    let t := s.pending.getD i defaultTask
    let snap := mkSnap t
    let spawned :=
      spawnChildren t.tree.children snap.path t.id snap.visible s.nextId
    { nextId := spawned.2
      list := s.list ++ [snap]
      pending := s.pending.eraseIdx i ++ spawned.1 }

/-- Run the walk to completion under a schedule (each step consumes one
tree node, so `fuel = size root` suffices). -/
def runWalk : Nat → (Nat → Nat) → WalkState → WalkState
  | 0, _, s => s
  | fuel + 1, sched, s =>
    match s.pending with
    | [] => s
    | _ :: _ => runWalk fuel sched (walkStep s (sched fuel))

/-- `snapshotTree(root)` under a given promise schedule: `walk(root, '',
null, true)` assigns id 1 and the pool drains to completion. -/
def snapshotTree (sched : Nat → Nat) (root : SceneTree) :
    List DSStructureNode :=
  let rootTask : PTask :=
    { tree := root
      parentPath := ""
      parentId := none
      id := 1
      visible := root.selfVisible }
  (runWalk root.size sched
    { nextId := 2, list := [], pending := [rootTask] }).list

/-! ## Small shared predicates for the claim statements -/

/-- `sub` occurs as a contiguous substring of `s`. -/
def mentions (sub s : String) : Prop := sub.toList <:+: s.toList

instance (sub s : String) : Decidable (mentions sub s) :=
  inferInstanceAs (Decidable (_ <:+: _))

/-- `p` is a prefix of `s`. -/
def msgPrefix (p s : String) : Prop := p.toList <+: s.toList

instance (p s : String) : Decidable (msgPrefix p s) :=
  inferInstanceAs (Decidable (_ <+: _))

/-! # Claim theorems -/

/-- **C2, counterexample.**  The claim says that a component whose
variants list declares `"A"` and `"B"` but whose `variantStructures` map
holds a patch list only for `"A"` makes `resolveStructure(component, "B")`
return `null` — but when such a component has a non-empty base structure,
`resolveStructure` falls back to a clone of the base instead of `null`. -/
theorem C2_counterexample :
    resolveStructure
      (some
        { structure' := some [{ id := 1, path := "root" }]
          variants := some [{ key := "A" }, { key := "B" }]
          variantStructures := some [("A", [])] })
      (some "B") =
      some [{ id := 1, path := "root" }] := by
  rfl

/-- **C2, amended.**  For every component whose `variantStructures` holds
no patch list for `"B"` and whose base structure is absent or empty,
`resolveStructure(component, "B")` returns `null` (the code returns the
base clone whenever a non-empty base exists, and `null` only when there is
no usable base and no patches). -/
theorem C2_amended (c : LibraryComponent)
    (hpatch : ∀ vs, c.variantStructures = some vs → recordGet vs "B" = none)
    (hbase : c.structure'.getD [] = []) :
    resolveStructure (some c) (some "B") = none := by
  unfold resolveStructure
  have hvs :
      (if tstr (some "B") then
        match c.variantStructures with
        | none => none
        | some vs => recordGet vs "B"
       else none) = (none : Option (List DSVariantStructurePatch)) := by
    cases h : c.variantStructures with
    | none => simp [tstr]
    | some vs => simpa [tstr] using hpatch vs h
  cases h : c.structure' with
  | none => simp [h, hvs]
  | some base =>
    have : base = [] := by simpa [h] using hbase
    subst this
    simp [h, hvs]

/-- **C2, witness.** -/
theorem C2_witness :
    resolveStructure
      (some
        { structure' := some []
          variants := some [{ key := "A" }, { key := "B" }]
          variantStructures := some [("A", [])] })
      (some "B") = none :=
  C2_amended _ (by intro vs h; cases h; rfl) (by rfl)

/-! ## Self-diff reflexivity lemmas -/

theorem fmtTok_falsy (r : String → Option String) (t : Option String)
    (h : tstr t = false) : fmtTok r t = none := by
  cases t with
  | none => rfl
  | some s =>
    have hs : s = "" := by simpa [tstr] using h
    subst hs
    rfl

theorem comparePaddingSide_self (path : String) (n : DSStructureNode)
    (p : Option DSPadding) (tks : Option DSPaddingTokens) (strict : Bool)
    (side : Side) (st : DiffState) :
    comparePaddingSide path n p p tks tks strict side st = st := by
  unfold comparePaddingSide
  cases hb : p.bind (·.side side) with
  | none => simp [hb]
  | some bv =>
    cases ht : tstr (tks.bind (·.side side)) <;> simp [hb, ht]

theorem comparePadding_self (path : String) (n : DSStructureNode)
    (p : Option DSPadding) (tks : Option DSPaddingTokens) (strict : Bool)
    (st : DiffState) :
    comparePadding path n p p tks tks strict st = st := by
  simp [comparePadding, comparePaddingSide_self]

theorem compareStyle_self (lab path : String) (n : DSStructureNode)
    (s : Option String) (rS : String → Option String) (st : DiffState) :
    compareStyle lab path n s s rS st = st := by
  cases s with
  | none => rfl
  | some v => simp [compareStyle]

theorem tstr_none : tstr none = false := rfl

theorem comparePaint_self (lab path : String) (n : DSStructureNode)
    (p : Option DSPaintInfo) (strict : Bool) (rT : String → Option String)
    (st : DiffState) :
    comparePaint lab path n p p strict rT (fun _ => none) st = st := by
  cases p with
  | none => rfl
  | some pi =>
    have hmiss : paintMissing (some pi) = (!tstr pi.color && !tstr pi.token) :=
      rfl
    by_cases hg : (!tstr pi.color && !tstr pi.token) = true
    · simp [comparePaint, comparePaintLabels, hg]
    · have hg2 : (!tstr pi.color && !tstr pi.token) = false := by
        cases hv : (!tstr pi.color && !tstr pi.token)
        · rfl
        · exact absurd hv hg
      cases h2 : tstr pi.token with
      | true => simp [comparePaint, comparePaintLabels, hg2, hmiss, h2]
      | false =>
        have hfmt : fmtTok rT pi.token = none := fmtTok_falsy rT pi.token h2
        cases h1 : tstr pi.color with
        | true => simp [comparePaint, comparePaintLabels, hg2, hmiss, h2, h1, hfmt, tstr_none]
        | false => simp [comparePaint, comparePaintLabels, hg2, hmiss, h2, h1, hfmt, tstr_none]

theorem compareStroke_self (path : String) (n : DSStructureNode)
    (s : Option DSStrokeInfo) (strict : Bool) (rT : String → Option String)
    (st : DiffState) :
    compareStroke path n s s strict rT (fun _ => none) st = st := by
  cases s with
  | none => simp [compareStroke, tstr_none]
  | some si =>
    simp only [compareStroke, Option.map_some']
    rw [comparePaint_self]
    cases hw : si.weight with
    | none => simp [hw]
    | some w => simp [hw]

theorem compareRadius_self (path : String) (n : DSStructureNode)
    (r : Option DSRadii) (tok : Option String) (strict : Bool)
    (st : DiffState) :
    compareRadius path n r r tok tok strict st = st := by
  cases r with
  | none => rfl
  | some rv =>
    cases ht : tstr tok <;> simp [compareRadius, ht]

theorem compareOpacity_self (path : String) (n : DSStructureNode)
    (v : Option ℚ) (tok : Option String) (strict : Bool) (st : DiffState) :
    compareOpacity path n v v tok tok strict st = st := by
  cases v with
  | none => rfl
  | some q =>
    cases ht : tstr tok <;> simp [compareOpacity, ht]

theorem compareNode_self (path : String) (n : DSStructureNode)
    (strict : Bool) (rT rS : String → Option String) (st : DiffState) :
    compareNode path n n
      { strict := strict, resolveTokenLabel := rT,
        resolveColorLabel := fun _ => none, resolveStyleLabel := rS } st =
      st := by
  unfold compareNode
  simp only [comparePadding_self, compareStyle_self, comparePaint_self,
    compareStroke_self, compareRadius_self, compareOpacity_self]
  cases hIS : (n.layout.getD {}).itemSpacing with
  | none =>
    cases ht : tstr (n.layout.getD {}).itemSpacingToken <;> simp [hIS, ht]
  | some v =>
    cases ht : tstr (n.layout.getD {}).itemSpacingToken <;> simp [hIS, ht]

/-! ## Path-map lemmas -/

/-- Pairwise key-distinctness of an association list. -/
def KeysDistinct (m : List (String × DSStructureNode)) : Prop :=
  m.Pairwise (fun a b => a.1 ≠ b.1)

/-- Every key of `jsMapSet m k v` is a key of `m` or `k` itself. -/
theorem mem_jsMapSet (m : List (String × DSStructureNode)) (k : String)
    (v : DSStructureNode) (b : String × DSStructureNode)
    (h : b ∈ jsMapSet m k v) : b.1 ∈ m.map Prod.fst ∨ b.1 = k := by
  induction m with
  | nil =>
    rw [jsMapSet] at h
    rcases List.mem_singleton.mp h with rfl
    exact Or.inr rfl
  | cons e rest ih =>
    obtain ⟨ek, ev⟩ := e
    rw [jsMapSet] at h
    by_cases he : ek = k
    · rw [if_pos he] at h
      rcases List.mem_cons.mp h with rfl | h
      · exact Or.inl (by simp)
      · exact Or.inl (by simpa using Or.inr (List.mem_map_of_mem Prod.fst h))
    · rw [if_neg he] at h
      rcases List.mem_cons.mp h with rfl | h
      · exact Or.inl (by simp)
      · rcases ih h with h' | h'
        · exact Or.inl (by simpa using Or.inr h')
        · exact Or.inr h'

/-- `jsMapSet` keeps keys pairwise distinct. -/
theorem keysDistinct_jsMapSet (m : List (String × DSStructureNode))
    (k : String) (v : DSStructureNode) (hd : KeysDistinct m) :
    KeysDistinct (jsMapSet m k v) := by
  induction m with
  | nil =>
    rw [jsMapSet]
    exact List.pairwise_singleton _ _
  | cons e rest ih =>
    obtain ⟨ek, ev⟩ := e
    rcases List.pairwise_cons.mp hd with ⟨hhead, htail⟩
    rw [jsMapSet]
    by_cases he : ek = k
    · rw [if_pos he]
      exact List.pairwise_cons.mpr ⟨hhead, htail⟩
    · rw [if_neg he]
      refine List.pairwise_cons.mpr ⟨?_, ih htail⟩
      intro b hb
      rcases mem_jsMapSet rest k v b hb with h' | h'
      · rcases List.mem_map.mp h' with ⟨b', hb', hfst⟩
        rw [← hfst]
        exact hhead b' hb'
      · rw [h']
        exact he

theorem keysDistinct_buildPathMap (S : List DSStructureNode) :
    KeysDistinct (buildPathMap S) := by
  have general :
      ∀ (l : List DSStructureNode) (acc : List (String × DSStructureNode)),
        KeysDistinct acc →
        KeysDistinct (l.foldl (fun a node => jsMapSet a node.path node) acc) := by
    intro l
    induction l with
    | nil => intro acc h; exact h
    | cons n rest ih =>
      intro acc h
      exact ih _ (keysDistinct_jsMapSet acc n.path n h)
  exact general S [] List.Pairwise.nil

/-- On a distinct-keys map, `get` finds any member entry. -/
theorem jsMapGet_of_mem (m : List (String × DSStructureNode))
    (hd : KeysDistinct m) (k : String) (v : DSStructureNode)
    (h : (k, v) ∈ m) : jsMapGet m k = some v := by
  induction m with
  | nil => simp at h
  | cons e rest ih =>
    obtain ⟨ek, ev⟩ := e
    rcases List.pairwise_cons.mp hd with ⟨hhead, htail⟩
    rw [jsMapGet]
    rcases List.mem_cons.mp h with heq | h
    · obtain ⟨rfl, rfl⟩ := Prod.mk.injEq .. ▸ heq
      · rw [if_pos rfl]
    · have hk : ek ≠ k := hhead (k, v) h
      rw [if_neg hk]
      exact ih htail h

/-- Folding a step that fixes every state over any list is the identity. -/
theorem foldl_fixed {α : Type} (f : DiffState → α → DiffState)
    (l : List α) (h : ∀ e ∈ l, ∀ st, f st e = st) (st : DiffState) :
    l.foldl f st = st := by
  induction l generalizing st with
  | nil => rfl
  | cons e rest ih =>
    rw [List.foldl_cons, h e (by simp)]
    exact ih (fun e' he' st' => h e' (by simp [he']) st') st

/-- **C1, counterexample.**  Diffing a structure against itself is not
always empty: when a node's fill has a color but no token and the injected
color-label resolver resolves that color, `comparePaint` reports a
spurious fill diff even though both sides are the very same node. -/
theorem C1_counterexample :
    (diffStructures
      [{ id := 1, path := "a", name := "a",
         fill := some { color := some "c", token := none } }]
      [{ id := 1, path := "a", name := "a",
         fill := some { color := some "c", token := none } }]
      { strict := true, resolveColorLabel := fun _ => some "L" }).diffs ≠
      [] := by
  decide

/-- **C1, amended.**  For every flattened structure `S`, any strict flag
and any injected token/style label resolvers, as long as no color-label
resolver is injected, `diffStructures(S, S, options)` returns an empty
diff list and an empty issue list. -/
theorem C1_amended (S : List DSStructureNode) (strict : Bool)
    (rT rS : String → Option String) :
    diffStructures S S
      { strict := strict, resolveTokenLabel := rT,
        resolveColorLabel := fun _ => none, resolveStyleLabel := rS } =
      { diffs := [], issues := [] } := by
  unfold diffStructures
  refine foldl_fixed _ _ ?_ _
  intro e he st
  rw [jsMapGet_of_mem (buildPathMap S) (keysDistinct_buildPathMap S) e.1 e.2
    (by simpa using he)]
  exact compareNode_self e.1 e.2 strict rT rS st

/-! ## Substring helpers -/

theorem mentions_append_left (sub p s : String) (h : mentions sub p) :
    mentions sub (p ++ s) := by
  unfold mentions at *
  have : p.toList <+: (p ++ s).toList := by
    show p.data <+: (p ++ s).data
    rw [String.data_append]
    exact List.prefix_append _ _
  exact h.trans this.isInfix

/-- **C6.**  Under `strict = true`, when the reference declares padding
top 8 with no padding token and the actual node's padding top is `null`,
`diffStructures` yields exactly one issue — which mentions "padding top" —
and no diff at all (in particular none for that attribute), whatever the
injected label resolvers are. -/
theorem C6_padding_top_issue (path : String)
    (rT rC rS : String → Option String) :
    diffStructures
      [{ id := 1, path := path, name := "n",
         layout := some { padding := some { top := none, right := none, bottom := none, left := none } } }]
      [{ id := 1, path := path, name := "n",
         layout := some { padding := some { top := some 8, right := none, bottom := none, left := none } } }]
      { strict := true, resolveTokenLabel := rT, resolveColorLabel := rC,
        resolveStyleLabel := rS } =
      { diffs := [],
        issues := ["Нет данных для padding top в снапшоте для «" ++ path ++
          "»"] } ∧
    mentions "padding top"
      ("Нет данных для padding top в снапшоте для «" ++ path ++ "»") := by
  constructor
  · simp [diffStructures, buildPathMap, jsMapSet, jsMapGet, compareNode,
      comparePadding, comparePaddingSide, compareStyle, comparePaint, comparePaintLabels,
      compareStroke, compareRadius, compareOpacity, addIssue, pushDiff,
      tstr_none, DSPadding.side, Side.label, paintMissing]
  · have hpre : mentions "padding top" "Нет данных для padding top в снапшоте для «" := by
      decide
    have := mentions_append_left "padding top"
      "Нет данных для padding top в снапшоте для «" (path ++ "»") hpre
    simpa [String.append_assoc] using this

/-- **C7.**  A scalar reference radius 8 against an actual four-corner
record `(8, 8, 8, 8)` is treated as unequal (strict structural JSON
equality), and the emitted radius diff formats the scalar as a bare
number and the record as a four-value tuple. -/
theorem C7_radius_format (path : String) (strict : Bool)
    (rT rC rS : String → Option String) :
    diffStructures
      [{ id := 1, path := path, name := "n",
         radius := some (.corners 8 8 8 8) }]
      [{ id := 1, path := path, name := "n", radius := some (.scalar 8) }]
      { strict := strict, resolveTokenLabel := rT, resolveColorLabel := rC,
        resolveStyleLabel := rS } =
      { diffs := [{ message := "Скругления: 8 → (8, 8, 8, 8)",
                    nodePath := path, nodeName := "n", nodeId := none,
                    visible := true }],
        issues := [] } ∧
    formatRadius (some (.scalar 8)) = "8" ∧
    formatRadius (some (.corners 8 8 8 8)) = "(8, 8, 8, 8)" := by
  refine ⟨?_, by decide, by decide⟩
  simp [diffStructures, buildPathMap, jsMapSet, jsMapGet, compareNode,
    comparePadding, comparePaddingSide, compareStyle, comparePaint, comparePaintLabels,
    compareStroke, compareRadius, compareOpacity, addIssue, pushDiff,
    tstr_none, paintMissing, formatRadius, numStr]
  rfl

/-- **C5, counterexample.**  The claim quantifies over "the same non-null
token id" — but the empty string is a non-null token id that is *falsy*,
so the exact-token short-circuit does not fire: with `token = ""` on both
sides and different colors `comparePaint` still emits a fill diff. -/
theorem C5_counterexample :
    (diffStructures
      [{ id := 1, path := "a", name := "a",
         fill := some { color := some "b", token := some "" } }]
      [{ id := 1, path := "a", name := "a",
         fill := some { color := some "a", token := some "" } }]
      {}).diffs =
      [{ message := "заливка: a → b", nodePath := "a", nodeName := "a",
         nodeId := none, visible := true }] := by
  decide

/-- **C5, amended.**  For a shared path where the reference fill and the
actual fill carry the same non-*empty* token id, `diffStructures`
produces no diff and no issue for that path, regardless of the injected
token/color label resolvers and of the colors on either side: exact
token-id equality short-circuits before any label resolution. -/
theorem C5_amended (path : String) (colorA colorR : Option String)
    (t : String) (ht : t ≠ "") (strict : Bool)
    (rT rC rS : String → Option String) :
    diffStructures
      [{ id := 1, path := path, name := "n",
         fill := some { color := colorA, token := some t } }]
      [{ id := 1, path := path, name := "n",
         fill := some { color := colorR, token := some t } }]
      { strict := strict, resolveTokenLabel := rT, resolveColorLabel := rC,
        resolveStyleLabel := rS } =
      { diffs := [], issues := [] } := by
  have htstr : tstr (some t) = true := by simp [tstr, ht]
  simp [diffStructures, buildPathMap, jsMapSet, jsMapGet, compareNode,
    comparePadding, comparePaddingSide, compareStyle, comparePaint, comparePaintLabels,
    compareStroke, compareRadius, compareOpacity, addIssue, pushDiff,
    tstr_none, paintMissing, htstr]

/-- **C5, witness.** -/
theorem C5_amended_witness :
    diffStructures
      [{ id := 1, path := "p", name := "n",
         fill := some { color := some "x", token := some "T1" } }]
      [{ id := 1, path := "p", name := "n",
         fill := some { color := some "y", token := some "T1" } }]
      { strict := true, resolveTokenLabel := fun s => some (s ++ "!"),
        resolveColorLabel := fun s => some (s ++ "?"),
        resolveStyleLabel := fun s => some s } =
      { diffs := [], issues := [] } :=
  C5_amended "p" (some "x") (some "y") "T1" (by decide) true _ _ _

/-- **C9, counterexample.**  Opacities 0.114 and 0.116 agree on their
first two decimal digits (they "differ only past the second decimal"),
yet rounding to two decimals sends them to 0.11 and 0.12, so a diff *is*
produced — the claim's parenthetical is truncation, the code rounds. -/
theorem C9_counterexample :
    (Rat.floor ((114 / 1000 : ℚ) * 100) = 11 ∧
     Rat.floor ((116 / 1000 : ℚ) * 100) = 11) ∧
    (diffStructures
      [{ id := 1, path := "a", name := "a", opacity := some (116 / 1000) }]
      [{ id := 1, path := "a", name := "a", opacity := some (114 / 1000) }]
      {}).diffs ≠ [] := by
  have h1 : round2 (116 / 1000 : ℚ) = 12 / 100 := by
    unfold round2
    rw [Rat.floor_def']
    norm_num
  have h2 : round2 (114 / 1000 : ℚ) = 11 / 100 := by
    unfold round2
    rw [Rat.floor_def']
    norm_num
  have hne : round2 (116 / 1000 : ℚ) ≠ round2 (114 / 1000 : ℚ) := by
    rw [h1, h2]
    norm_num
  refine ⟨⟨?_, ?_⟩, ?_⟩
  · rw [Rat.floor_def']
    norm_num
  · rw [Rat.floor_def']
    norm_num
  · simp [diffStructures, buildPathMap, jsMapSet, jsMapGet, compareNode,
      comparePadding, comparePaddingSide, compareStyle, comparePaint, comparePaintLabels,
      compareStroke, compareRadius, compareOpacity, addIssue, pushDiff,
      tstr_none, paintMissing, hne]

/-- **C9, amended.**  Opacity values are rounded to 2 decimal places
before being compared — values whose roundings coincide produce no value
diff — and when the reference also pins an opacity token, the token-id
mismatch diff and the rounded-value mismatch diff are produced
independently: the value diff appears exactly when the roundings differ,
on top of the token diff. -/
theorem C9_amended (path : String) (a r : ℚ) (ta tr : String)
    (hta : ta ≠ "") (htr : tr ≠ "") (hne : ta ≠ tr) (strict : Bool)
    (rT rC rS : String → Option String) :
    diffStructures
      [{ id := 1, path := path, name := "n", opacity := some a,
         opacityToken := some ta }]
      [{ id := 1, path := path, name := "n", opacity := some r,
         opacityToken := some tr }]
      { strict := strict, resolveTokenLabel := rT, resolveColorLabel := rC,
        resolveStyleLabel := rS } =
      { diffs := [{ message := "Token opacity: " ++ tr ++ " → " ++ ta,
                    nodePath := path, nodeName := "n", nodeId := none,
                    visible := true }] ++
          (if round2 a = round2 r then []
           else
            [{ message := "Прозрачность: " ++ numStr (round2 r) ++ " → " ++
                 numStr (round2 a),
               nodePath := path, nodeName := "n", nodeId := none,
               visible := true }]),
        issues := [] } := by
  have htaT : tstr (some ta) = true := by simp [tstr, hta]
  have htrT : tstr (some tr) = true := by simp [tstr, htr]
  have hneT : (some ta) ≠ (some tr) := by simpa using hne
  by_cases hr : round2 a = round2 r
  · simp [diffStructures, buildPathMap, jsMapSet, jsMapGet, compareNode,
      comparePadding, comparePaddingSide, compareStyle, comparePaint, comparePaintLabels,
      compareStroke, compareRadius, compareOpacity, addIssue, pushDiff,
      tstr_none, paintMissing, htaT, htrT, hneT, hr, optStr, optNum]
  · simp [diffStructures, buildPathMap, jsMapSet, jsMapGet, compareNode,
      comparePadding, comparePaddingSide, compareStyle, comparePaint, comparePaintLabels,
      compareStroke, compareRadius, compareOpacity, addIssue, pushDiff,
      tstr_none, paintMissing, htaT, htrT, hneT, hr, optStr, optNum]

/-- **C9, witness.** -/
theorem C9_amended_witness :
    diffStructures
      [{ id := 1, path := "p", name := "n", opacity := some (1 / 10),
         opacityToken := some "x" }]
      [{ id := 1, path := "p", name := "n", opacity := some (2 / 10),
         opacityToken := some "y" }]
      { strict := true, resolveTokenLabel := fun _ => none,
        resolveColorLabel := fun _ => none,
        resolveStyleLabel := fun _ => none } =
      { diffs := [{ message := "Token opacity: " ++ "y" ++ " → " ++ "x",
                    nodePath := "p", nodeName := "n", nodeId := none,
                    visible := true }] ++
          (if round2 (1 / 10) = round2 (2 / 10) then []
           else
            [{ message := "Прозрачность: " ++ numStr (round2 (2 / 10)) ++
                 " → " ++ numStr (round2 (1 / 10)),
               nodePath := "p", nodeName := "n", nodeId := none,
               visible := true }]),
        issues := [] } :=
  C9_amended "p" (1 / 10) (2 / 10) "x" "y" (by decide) (by decide)
    (by decide) true _ _ _

/-! ## Message-shape lemmas -/

theorem msgPrefix_rfl (p : String) : msgPrefix p p := List.prefix_refl _

theorem msgPrefix_append_right (p s t : String) (h : msgPrefix p s) :
    msgPrefix p (s ++ t) := by
  unfold msgPrefix at *
  show p.data <+: (s ++ t).data
  rw [String.data_append]
  exact h.trans (List.prefix_append _ _)

theorem addIssue_diffs (st : DiffState) (m : String) :
    (addIssue st m).diffs = st.diffs := by
  unfold addIssue
  split <;> rfl

theorem mem_pushDiff_diffs (st : DiffState) (n : DSStructureNode)
    (path msg : String) (e : DiffEntry)
    (he : e ∈ (pushDiff st n path msg).diffs) :
    e ∈ st.diffs ∨ e.message = msg := by
  unfold pushDiff at he
  rcases List.mem_append.mp he with h | h
  · exact Or.inl h
  · rcases List.mem_singleton.mp h with rfl
    exact Or.inr rfl

/-- Every diff `comparePaintLabels` adds carries a message starting with
the paint label followed by ": ". -/
theorem comparePaintLabels_diffs_shape (lab path : String)
    (n : DSStructureNode) (refLab actLab refColor actColor : Option String)
    (st : DiffState) (e : DiffEntry)
    (he : e ∈ (comparePaintLabels lab path n refLab actLab refColor actColor
      st).diffs) :
    e ∈ st.diffs ∨ msgPrefix (lab ++ ": ") e.message := by
  have hpre : ∀ x sep y : String,
      msgPrefix (lab ++ ": ") (lab ++ ": " ++ x ++ sep ++ y) :=
    fun x sep y =>
      msgPrefix_append_right _ _ _
        (msgPrefix_append_right _ _ _
          (msgPrefix_append_right _ _ _ (msgPrefix_rfl _)))
  have hpush : ∀ (st' : DiffState) (x sep y : String),
      e ∈ (pushDiff st' n path (lab ++ ": " ++ x ++ sep ++ y)).diffs →
      e ∈ st'.diffs ∨ msgPrefix (lab ++ ": ") e.message := by
    intro st' x sep y hmem
    rcases mem_pushDiff_diffs _ _ _ _ _ hmem with h | h
    · exact Or.inl h
    · exact Or.inr (h ▸ hpre x sep y)
  unfold comparePaintLabels at he
  split at he
  · split at he
    · exact Or.inl he
    · exact hpush _ _ _ _ he
  · split at he
    · exact hpush _ _ _ _ he
    · split at he
      · split at he
        · exact hpush _ _ _ _ he
        · split at he
          · exact Or.inl he
          · exact hpush _ _ _ _ he
      · split at he
        · split at he
          · exact Or.inl he
          · exact hpush _ _ _ _ he
        · exact Or.inl he

/-- Every diff `comparePaint` adds carries a message starting with the
paint label followed by ": ". -/
theorem comparePaint_diffs_shape (lab path : String) (n : DSStructureNode)
    (a r : Option DSPaintInfo) (strict : Bool)
    (rT rC : String → Option String) (st : DiffState) (e : DiffEntry)
    (he : e ∈ (comparePaint lab path n a r strict rT rC st).diffs) :
    e ∈ st.diffs ∨ msgPrefix (lab ++ ": ") e.message := by
  cases r with
  | none => exact Or.inl he
  | some ref =>
    simp only [comparePaint] at he
    split at he
    · exact Or.inl he
    · split at he
      · rw [addIssue_diffs] at he
        exact Or.inl he
      · split at he
        · exact Or.inl he
        · exact comparePaintLabels_diffs_shape _ _ _ _ _ _ _ _ _ he

/-- When the reference *does* declare a stroke, every diff `compareStroke`
adds starts with "обводка: " (lower case, from the shared paint path) or
"Толщина обводки: " — never with the customization marker "Обводка:". -/
theorem compareStroke_some_diffs_shape (path : String) (n : DSStructureNode)
    (a : Option DSStrokeInfo) (ref : DSStrokeInfo) (strict : Bool)
    (rT rC : String → Option String) (st : DiffState) (e : DiffEntry)
    (he : e ∈ (compareStroke path n a (some ref) strict rT rC st).diffs) :
    e ∈ st.diffs ∨ msgPrefix "обводка: " e.message ∨
      msgPrefix "Толщина обводки: " e.message := by
  have hlab : ("обводка" ++ ": " : String) = "обводка: " := rfl
  simp only [compareStroke] at he
  have paintCase :
      ∀ e' ∈ (comparePaint "обводка" path n (a.map strokeToPaint)
          (some (strokeToPaint ref)) strict rT rC st).diffs,
        e' ∈ st.diffs ∨ msgPrefix "обводка: " e'.message := by
    intro e' he'
    rcases comparePaint_diffs_shape _ _ _ _ _ _ _ _ _ _ he' with h | h
    · exact Or.inl h
    · exact Or.inr (hlab ▸ h)
  split at he
  · rcases paintCase e he with h | h
    · exact Or.inl h
    · exact Or.inr (Or.inl h)
  · split at he
    · rw [addIssue_diffs] at he
      rcases paintCase e he with h | h
      · exact Or.inl h
      · exact Or.inr (Or.inl h)
    · split at he
      · rcases mem_pushDiff_diffs _ _ _ _ _ he with h | h
        · rcases paintCase e h with h' | h'
          · exact Or.inl h'
          · exact Or.inr (Or.inl h')
        · refine Or.inr (Or.inr ?_)
          rw [h]
          exact msgPrefix_append_right _ _ _
            (msgPrefix_append_right _ _ _
              (msgPrefix_append_right _ _ _ (msgPrefix_rfl _)))
      · rcases paintCase e he with h | h
        · exact Or.inl h
        · exact Or.inr (Or.inl h)

theorem msgPrefix_head (p s : String) (c : Char) (cs : List Char)
    (hp : p.toList = c :: cs) (h : msgPrefix p s) :
    s.toList.head? = some c := by
  unfold msgPrefix at h
  rw [hp] at h
  obtain ⟨t, ht⟩ := h
  rw [← ht]
  rfl

theorem not_msgPrefix_capital_stroke (m : String)
    (h : msgPrefix "обводка: " m ∨ msgPrefix "Толщина обводки: " m) :
    ¬ msgPrefix "Обводка:" m := by
  intro hcap
  have hc : m.toList.head? = some 'О' :=
    msgPrefix_head _ _ 'О' ("бводка:".toList) rfl hcap
  rcases h with h | h
  · have ho : m.toList.head? = some 'о' :=
      msgPrefix_head _ _ 'о' ("бводка: ".toList) rfl h
    rw [ho] at hc
    exact absurd (Option.some.inj hc) (by decide)
  · have ho : m.toList.head? = some 'Т' :=
      msgPrefix_head _ _ 'Т' ("олщина обводки: ".toList) rfl h
    rw [ho] at hc
    exact absurd (Option.some.inj hc) (by decide)

/-- **C8.**  When the reference node has no stroke attribute at all but
the actual node carries a stroke with a truthy color or token and a
positive weight, `diffStructures` emits exactly one customization diff
("Обводка: — → …").  This is asymmetric: in the mirrored situation
(reference has the stroke, actual does not) no diff of that
customization form is ever emitted — the reference-side stroke goes
through the shared paint/issue path instead. -/
theorem C8_stroke_customization (path : String) (c t : Option String)
    (w : ℚ) (strict : Bool) (rT rC rS : String → Option String)
    (h : (tstr t || tstr c) = true) (hw : 0 < w) :
    diffStructures
      [{ id := 1, path := path, name := "n",
         stroke := some { color := c, token := t, weight := some w } }]
      [{ id := 1, path := path, name := "n" }]
      { strict := strict, resolveTokenLabel := rT, resolveColorLabel := rC,
        resolveStyleLabel := rS } =
      { diffs := [{ message := "Обводка: — → " ++ strokeCustomTarget rT rC t c,
                    nodePath := path, nodeName := "n", nodeId := none,
                    visible := true }],
        issues := [] } ∧
    ∀ e ∈ (diffStructures
      [{ id := 1, path := path, name := "n" }]
      [{ id := 1, path := path, name := "n",
         stroke := some { color := c, token := t, weight := some w } }]
      { strict := strict, resolveTokenLabel := rT, resolveColorLabel := rC,
        resolveStyleLabel := rS }).diffs,
      ¬ msgPrefix "Обводка:" e.message := by
  have hwd : decide (0 < w) = true := decide_eq_true hw
  constructor
  · simp [diffStructures, buildPathMap, jsMapSet, jsMapGet, compareNode,
      comparePadding, comparePaddingSide, compareStyle, comparePaint,
      compareStroke, compareRadius, compareOpacity, addIssue, pushDiff,
      tstr_none, paintMissing, h, hwd]
    intro ht
    cases hc : tstr c with
    | true => rfl
    | false => rw [ht, hc] at h; exact absurd h (by decide)
  · intro e he
    simp [diffStructures, buildPathMap, jsMapSet, jsMapGet, compareNode,
      comparePadding, comparePaddingSide, compareStyle, comparePaint,
      compareRadius, compareOpacity, tstr_none, paintMissing] at he
    refine not_msgPrefix_capital_stroke e.message ?_
    rcases compareStroke_some_diffs_shape _ _ _ _ _ _ _ _ _ he with h' | h' | h'
    · simp at h'
    · exact Or.inl h'
    · exact Or.inr h'

/-- **C8, witness.** -/
theorem C8_stroke_customization_witness :
    diffStructures
      [{ id := 1, path := "p", name := "n",
         stroke := some { color := some "c", token := none,
                          weight := some 2 } }]
      [{ id := 1, path := "p", name := "n" }]
      { strict := false, resolveTokenLabel := fun _ => none,
        resolveColorLabel := fun _ => none,
        resolveStyleLabel := fun _ => none } =
      { diffs := [{ message := "Обводка: — → " ++
                      strokeCustomTarget (fun _ => none) (fun _ => none)
                        none (some "c"),
                    nodePath := "p", nodeName := "n", nodeId := none,
                    visible := true }],
        issues := [] } ∧
    ∀ e ∈ (diffStructures
      [{ id := 1, path := "p", name := "n" }]
      [{ id := 1, path := "p", name := "n",
         stroke := some { color := some "c", token := none,
                          weight := some 2 } }]
      { strict := false, resolveTokenLabel := fun _ => none,
        resolveColorLabel := fun _ => none,
        resolveStyleLabel := fun _ => none }).diffs,
      ¬ msgPrefix "Обводка:" e.message :=
  C8_stroke_customization "p" (some "c") none 2 false _ _ _ (by decide)
    (by norm_num)

/-! ## Unmatched-reference-path lemmas (C10) -/

theorem jsMapSet_filter (m : List (String × DSStructureNode)) (k : String)
    (v : DSStructureNode) (kp : String → Bool) :
    (jsMapSet m k v).filter (fun e => kp e.1) =
      if kp k then jsMapSet (m.filter (fun e => kp e.1)) k v
      else m.filter (fun e => kp e.1) := by
  induction m with
  | nil =>
    cases hk : kp k <;> simp [jsMapSet, hk]
  | cons e rest ih =>
    obtain ⟨ek, ev⟩ := e
    by_cases he : ek = k
    · subst he
      cases hk : kp ek <;> simp [jsMapSet, hk]
    · cases hek : kp ek <;> cases hk : kp k <;>
        simp [jsMapSet, he, hek, hk, ih]

theorem buildPathMap_filter (S : List DSStructureNode) (kp : String → Bool) :
    buildPathMap (S.filter (fun n => kp n.path)) =
      (buildPathMap S).filter (fun e => kp e.1) := by
  have general :
      ∀ (l : List DSStructureNode) (acc : List (String × DSStructureNode)),
        (l.filter (fun n => kp n.path)).foldl
            (fun a node => jsMapSet a node.path node)
            (acc.filter (fun e => kp e.1)) =
          (l.foldl (fun a node => jsMapSet a node.path node) acc).filter
            (fun e => kp e.1) := by
    intro l
    induction l with
    | nil => intro acc; rfl
    | cons n rest ih =>
      intro acc
      cases hn : kp n.path with
      | true =>
        have hset := jsMapSet_filter acc n.path n kp
        rw [hn, if_pos rfl] at hset
        rw [List.filter_cons]
        simp only [hn]
        rw [if_true, List.foldl_cons, List.foldl_cons, ← hset]
        exact ih _
      | false =>
        have hset := jsMapSet_filter acc n.path n kp
        rw [hn, if_neg (by decide)] at hset
        rw [List.filter_cons, List.foldl_cons]
        simp only [hn]
        rw [if_neg (by decide), ← ih, hset]
  have := general S []
  simpa [buildPathMap] using this

theorem foldl_filter_skip (aMap : List (String × DSStructureNode))
    (opts : DiffOptions) (m : List (String × DSStructureNode))
    (st : DiffState) :
    m.foldl
      (fun st entry =>
        match jsMapGet aMap entry.1 with
        | none => st
        | some node => compareNode entry.1 node entry.2 opts st) st =
    (m.filter (fun e => (jsMapGet aMap e.1).isSome)).foldl
      (fun st entry =>
        match jsMapGet aMap entry.1 with
        | none => st
        | some node => compareNode entry.1 node entry.2 opts st) st := by
  induction m generalizing st with
  | nil => rfl
  | cons e rest ih =>
    cases hg : jsMapGet aMap e.1 with
    | none =>
      rw [List.foldl_cons, List.filter_cons]
      simp only [hg, Option.isSome_none]
      rw [if_neg (by decide)]
      exact ih st
    | some node =>
      rw [List.foldl_cons, List.filter_cons]
      simp only [hg, Option.isSome_some]
      rw [if_true, List.foldl_cons]
      simp only [hg]
      exact ih _

/-- **C10.**  Reference paths with no matching actual node are entirely
silent: filtering the reference structure down to the paths present in
the actual structure changes neither the diff list nor the issue list,
for any options — in particular strict mode produces no issue for a
whole missing node. -/
theorem C10_unmatched_paths_silent (actual reference : List DSStructureNode)
    (opts : DiffOptions) :
    diffStructures actual reference opts =
      diffStructures actual
        (reference.filter
          (fun node => (jsMapGet (buildPathMap actual) node.path).isSome))
        opts := by
  unfold diffStructures
  rw [buildPathMap_filter reference
    (fun k => (jsMapGet (buildPathMap actual) k).isSome)]
  exact foldl_filter_skip (buildPathMap actual) opts (buildPathMap reference)
    {}

/-! ## Patch application: arena refines the specification reading (C3) -/

/-- The list of nodes an arena denotes (`nodes` as values). -/
def arenaList (A : PatchArena) : List DSStructureNode :=
  A.order.map (fun r => A.heap.getD r dummyNode)

theorem applyPatchValue_id (n : DSStructureNode) (p : DSStructureNodePatch) :
    (applyPatchValue n p).id = n.id := rfl

theorem natMapGet_natMapSet (m : List (Nat × Nat)) (k v id : Nat) :
    natMapGet (natMapSet m k v) id =
      if id = k then some v else natMapGet m id := by
  induction m with
  | nil =>
    by_cases h : id = k <;> simp [natMapSet, natMapGet, h, Ne.symm]
  | cons e rest ih =>
    obtain ⟨ek, ev⟩ := e
    by_cases hek : ek = k
    · subst hek
      by_cases h : id = ek <;> simp [natMapSet, natMapGet, h, Ne.symm]
    · by_cases h : id = ek
      · subst h
        simp [natMapSet, natMapGet, hek, Ne.symm hek]
      · simp [natMapSet, natMapGet, hek, h, Ne.symm, ih]


theorem natMapDelete_sublist (m : List (Nat × Nat)) (k : Nat) :
    List.Sublist (natMapDelete m k) m := by
  induction m with
  | nil => simp [natMapDelete]
  | cons e rest ih =>
    obtain ⟨ek, ev⟩ := e
    by_cases hek : ek = k
    · simp only [natMapDelete, if_pos hek]
      exact hek ▸ List.sublist_cons_self _ _
    · simp only [natMapDelete, if_neg hek]
      exact List.Sublist.cons₂ (ek, ev) ih

theorem natMapGet_natMapDelete_ne (m : List (Nat × Nat)) (k id : Nat)
    (h : id ≠ k) :
    natMapGet (natMapDelete m k) id = natMapGet m id := by
  induction m with
  | nil => rfl
  | cons e rest ih =>
    obtain ⟨ek, ev⟩ := e
    by_cases hek : ek = k
    · subst hek
      simp [natMapDelete, natMapGet, Ne.symm h]
    · by_cases hid : ek = id
      · subst hid
        simp [natMapDelete, natMapGet, hek]
      · simp [natMapDelete, natMapGet, hek, hid, ih]

theorem natMapGet_none_of_not_mem (m : List (Nat × Nat)) (k : Nat)
    (h : k ∉ m.map Prod.fst) : natMapGet m k = none := by
  induction m with
  | nil => rfl
  | cons e rest ih =>
    obtain ⟨ek, ev⟩ := e
    simp only [List.map_cons, List.mem_cons] at h
    push_neg at h
    simp [natMapGet, Ne.symm h.1, ih h.2]

theorem natMapGet_natMapDelete_self (m : List (Nat × Nat)) (k : Nat)
    (hd : (m.map Prod.fst).Nodup) :
    natMapGet (natMapDelete m k) k = none := by
  induction m with
  | nil => rfl
  | cons e rest ih =>
    obtain ⟨ek, ev⟩ := e
    simp only [List.map_cons, List.nodup_cons] at hd
    by_cases hek : ek = k
    · subst hek
      simp only [natMapDelete, if_pos rfl]
      exact natMapGet_none_of_not_mem rest ek hd.1
    · simp [natMapDelete, natMapGet, hek, ih hd.2]

theorem natMapSet_keys_mem (m : List (Nat × Nat)) (k v : Nat)
    (b : Nat × Nat) (h : b ∈ natMapSet m k v) :
    b.1 ∈ m.map Prod.fst ∨ b.1 = k := by
  induction m with
  | nil =>
    rw [natMapSet] at h
    rcases List.mem_singleton.mp h with rfl
    exact Or.inr rfl
  | cons e rest ih =>
    obtain ⟨ek, ev⟩ := e
    rw [natMapSet] at h
    by_cases he : ek = k
    · rw [if_pos he] at h
      rcases List.mem_cons.mp h with rfl | h
      · exact Or.inl (by simp)
      · exact Or.inl (by simpa using Or.inr (List.mem_map_of_mem Prod.fst h))
    · rw [if_neg he] at h
      rcases List.mem_cons.mp h with rfl | h
      · exact Or.inl (by simp)
      · rcases ih h with h' | h'
        · exact Or.inl (by simpa using Or.inr h')
        · exact Or.inr h'

theorem natMapSet_nodup (m : List (Nat × Nat)) (k v : Nat)
    (hd : (m.map Prod.fst).Nodup) :
    ((natMapSet m k v).map Prod.fst).Nodup := by
  induction m with
  | nil => simp [natMapSet]
  | cons e rest ih =>
    obtain ⟨ek, ev⟩ := e
    simp only [List.map_cons, List.nodup_cons] at hd
    by_cases he : ek = k
    · subst he
      rw [natMapSet, if_pos rfl]
      simp only [List.map_cons, List.nodup_cons]
      exact ⟨hd.1, hd.2⟩
    · rw [natMapSet, if_neg he]
      simp only [List.map_cons, List.nodup_cons]
      refine ⟨?_, ih hd.2⟩
      intro hmem
      rcases List.mem_map.mp hmem with ⟨b, hb, hfst⟩
      rcases natMapSet_keys_mem rest k v b hb with h' | h'
      · exact hd.1 (hfst ▸ h')
      · exact he (hfst ▸ h')

theorem listGetD_set_self (l : List DSStructureNode) (i : Nat)
    (a d : DSStructureNode) (h : i < l.length) :
    (l.set i a).getD i d = a := by
  induction l generalizing i with
  | nil => simp at h
  | cons x xs ih =>
    cases i with
    | zero => rfl
    | succ j =>
      simp only [List.set_cons_succ, List.getD_cons_succ]
      exact ih j (by simpa using h)

theorem listGetD_set_ne (l : List DSStructureNode) (i j : Nat)
    (a d : DSStructureNode) (h : i ≠ j) :
    (l.set i a).getD j d = l.getD j d := by
  induction l generalizing i j with
  | nil => simp [List.set]
  | cons x xs ih =>
    cases i with
    | zero =>
      cases j with
      | zero => exact absurd rfl h
      | succ k => rfl
    | succ i' =>
      cases j with
      | zero => rfl
      | succ k =>
        simp only [List.set_cons_succ, List.getD_cons_succ]
        exact ih i' k (fun he => h (by rw [he]))

theorem listGetD_append_lt (l : List DSStructureNode)
    (x d : DSStructureNode) (r : Nat) (h : r < l.length) :
    (l ++ [x]).getD r d = l.getD r d := by
  induction l generalizing r with
  | nil => simp at h
  | cons y ys ih =>
    cases r with
    | zero => rfl
    | succ k =>
      simp only [List.cons_append, List.getD_cons_succ]
      exact ih k (by simpa using h)

theorem listGetD_append_self (l : List DSStructureNode)
    (x d : DSStructureNode) :
    (l ++ [x]).getD l.length d = x := by
  induction l with
  | nil => rfl
  | cons y ys ih =>
    simpa using ih

theorem find?_congr_mem (l : List Nat) (p q : Nat → Bool)
    (h : ∀ x ∈ l, p x = q x) : l.find? p = l.find? q := by
  induction l with
  | nil => rfl
  | cons a rest ih =>
    have ha := h a (by simp)
    cases hq : q a with
    | true =>
      rw [List.find?_cons_of_pos _ (ha.trans hq),
        List.find?_cons_of_pos _ hq]
    | false =>
      rw [List.find?_cons_of_neg _ (by rw [ha, hq]; simp),
        List.find?_cons_of_neg _ (by rw [hq]; simp)]
      exact ih (fun x hx => h x (by simp [hx]))

theorem find?_eraseP_of_excl (l : List Nat) (p q : Nat → Bool)
    (h : ∀ x ∈ l, q x = true → p x = false) :
    (l.eraseP q).find? p = l.find? p := by
  induction l with
  | nil => rfl
  | cons a rest ih =>
    cases hq : q a with
    | true =>
      rw [List.eraseP_cons_of_pos hq,
        List.find?_cons_of_neg _ (by rw [h a (by simp) hq]; simp)]
    | false =>
      rw [List.eraseP_cons_of_neg (by rw [hq]; simp)]
      cases hp : p a with
      | true =>
        rw [List.find?_cons_of_pos _ hp, List.find?_cons_of_pos _ hp]
      | false =>
        rw [List.find?_cons_of_neg _ (by rw [hp]; simp),
          List.find?_cons_of_neg _ (by rw [hp]; simp)]
        exact ih (fun x hx => h x (by simp [hx]))

theorem find?_append_split (l1 l2 : List Nat) (p : Nat → Bool) :
    (l1 ++ l2).find? p =
      (match l1.find? p with
       | some a => some a
       | none => l2.find? p) := by
  induction l1 with
  | nil => rfl
  | cons a rest ih =>
    cases hp : p a with
    | true =>
      rw [List.cons_append, List.find?_cons_of_pos _ hp,
        List.find?_cons_of_pos _ hp]
    | false =>
      rw [List.cons_append, List.find?_cons_of_neg _ (by rw [hp]; simp),
        List.find?_cons_of_neg _ (by rw [hp]; simp)]
      exact ih

/-- The invariant tying the arena (heap/array/id-index with shared
mutable nodes) to the plain list of nodes it denotes. -/
structure ArenaInv (A : PatchArena) (spec : List DSStructureNode) : Prop where
  abs : arenaList A = spec
  idsNodup : (spec.map (fun n => n.id)).Nodup
  ordNodup : A.order.Nodup
  ordLt : ∀ r ∈ A.order, r < A.heap.length
  idx : ∀ id, natMapGet A.index id =
    A.order.find? (fun r => decide ((A.heap.getD r dummyNode).id = id))
  idxNodup : (A.index.map Prod.fst).Nodup

theorem spec_ids_update (spec : List DSStructureNode) (i : Nat)
    (v : DSStructureNodePatch) :
    ((spec.map (fun n => if n.id = i then applyPatchValue n v else n)).map
      (fun n => n.id)) = spec.map (fun n => n.id) := by
  rw [List.map_map]
  exact List.map_congr_left (fun n _ => by
    by_cases h : n.id = i <;> simp [h, applyPatchValue_id])

theorem spec_ids_eraseP (spec : List DSStructureNode) (i : Nat) :
    ((spec.eraseP (fun n => n.id = i)).map (fun n => n.id)) =
      (spec.map (fun n => n.id)).erase i := by
  induction spec with
  | nil => rfl
  | cons n rest ih =>
    by_cases h : n.id = i
    · rw [List.eraseP_cons_of_pos (by simp [h]), List.map_cons,
        List.erase_cons, if_pos (by simp [h])]
    · rw [List.eraseP_cons_of_neg (by simp [h]), List.map_cons,
        List.map_cons, List.erase_cons, if_neg (by simp [h]), ih]

theorem spec_update_absent (spec : List DSStructureNode) (i : Nat)
    (v : DSStructureNodePatch) (h : ∀ n ∈ spec, n.id ≠ i) :
    spec.map (fun n => if n.id = i then applyPatchValue n v else n) = spec := by
  have := List.map_congr_left
    (l := spec)
    (f := fun n => if n.id = i then applyPatchValue n v else n)
    (g := fun n => n)
    (fun n hn => if_neg (h n hn))
  rw [this]
  exact List.map_id spec

theorem eraseP_no_more (g : Nat → Nat) (i : Nat) (l : List Nat)
    (hn : (l.map g).Nodup) :
    ∀ r ∈ l.eraseP (fun r => decide (g r = i)), decide (g r = i) = false := by
  induction l with
  | nil => simp
  | cons a rest ih =>
    simp only [List.map_cons, List.nodup_cons] at hn
    by_cases ha : g a = i
    · rw [List.eraseP_cons_of_pos (by simp [ha])]
      intro r hr
      by_cases hgr : g r = i
      · exact absurd (List.mem_map_of_mem g hr)
          (by rw [hgr, ← ha] at *; exact fun hm => hn.1 hm)
      · simp [hgr]
    · rw [List.eraseP_cons_of_neg (by simp [ha])]
      intro r hr
      rcases List.mem_cons.mp hr with rfl | hr
      · simp [ha]
      · exact ih hn.2 r hr

theorem arenaInv_update (A : PatchArena) (spec : List DSStructureNode)
    (inv : ArenaInv A spec) (i : Nat) (v : DSStructureNodePatch) :
    ArenaInv (applyPatchStep A (.update i v))
      (applyOnePatchSpec spec (.update i v)) := by
  obtain ⟨abs, idsN, ordN, ordLt, idx, idxN⟩ := inv
  subst abs
  have idsN' :
      (A.order.map (fun r => (A.heap.getD r dummyNode).id)).Nodup := by
    have := idsN
    rw [arenaList, List.map_map] at this
    exact this
  cases hidx : natMapGet A.index i with
  | none =>
    have habsent : ∀ n ∈ arenaList A, n.id ≠ i := by
      intro n hn
      rcases List.mem_map.mp hn with ⟨r, hr, rfl⟩
      have := List.find?_eq_none.mp ((idx i).symm.trans hidx) r hr
      simpa using this
    simp only [applyPatchStep, hidx, applyOnePatchSpec]
    rw [spec_update_absent _ _ _ habsent]
    exact ⟨rfl, idsN, ordN, ordLt, idx, idxN⟩
  | some r =>
    have hfind :
        A.order.find?
          (fun r => decide ((A.heap.getD r dummyNode).id = i)) = some r :=
      (idx i).symm.trans hidx
    have hr_mem : r ∈ A.order := List.mem_of_find?_eq_some hfind
    have hr_id : (A.heap.getD r dummyNode).id = i := by
      have := List.find?_some hfind
      simpa using this
    have hr_lt : r < A.heap.length := ordLt r hr_mem
    simp only [applyPatchStep, hidx, applyOnePatchSpec]
    set newNode := applyPatchValue (A.heap.getD r dummyNode) v with hnew
    have hptw : ∀ r' ∈ A.order,
        (A.heap.set r newNode).getD r' dummyNode =
          (if (A.heap.getD r' dummyNode).id = i then
            applyPatchValue (A.heap.getD r' dummyNode) v
           else A.heap.getD r' dummyNode) := by
      intro r' hr'
      by_cases hrr : r' = r
      · subst hrr
        rw [listGetD_set_self _ _ _ _ hr_lt, if_pos hr_id]
      · rw [listGetD_set_ne _ _ _ _ _ (fun he => hrr he.symm)]
        have hne : (A.heap.getD r' dummyNode).id ≠ i := by
          intro he
          exact hrr (List.inj_on_of_nodup_map idsN' hr' hr_mem
            (by rw [he, hr_id]))
        rw [if_neg hne]
    refine ⟨?_, ?_, ordN, ?_, ?_, idxN⟩
    · show arenaList _ = _
      rw [arenaList, arenaList, List.map_map]
      exact List.map_congr_left hptw
    · rw [spec_ids_update]
      exact idsN
    · intro r' hr'
      rw [List.length_set]
      exact ordLt r' hr'
    · intro id
      rw [idx id]
      refine find?_congr_mem _ _ _ ?_
      intro r' hr'
      by_cases hrr : r' = r
      · subst hrr
        rw [listGetD_set_self _ _ _ _ hr_lt, hnew, applyPatchValue_id]
      · rw [listGetD_set_ne _ _ _ _ _ (fun he => hrr he.symm)]

theorem arenaInv_remove (A : PatchArena) (spec : List DSStructureNode)
    (inv : ArenaInv A spec) (i : Nat) :
    ArenaInv (applyPatchStep A (.remove i))
      (applyOnePatchSpec spec (.remove i)) := by
  obtain ⟨abs, idsN, ordN, ordLt, idx, idxN⟩ := inv
  subst abs
  have idsN' :
      (A.order.map (fun r => (A.heap.getD r dummyNode).id)).Nodup := by
    have := idsN
    rw [arenaList, List.map_map] at this
    exact this
  simp only [applyPatchStep, applyOnePatchSpec]
  refine ⟨?_, ?_, ?_, ?_, ?_, ?_⟩
  · show arenaList _ = _
    rw [arenaList, arenaList, List.eraseP_map]
    rfl
  · rw [spec_ids_eraseP]
    exact idsN.erase i
  · exact ordN.sublist (List.eraseP_sublist _)
  · intro r hr
    exact ordLt r ((List.eraseP_sublist _).mem hr)
  · intro id
    by_cases hid : id = i
    · subst hid
      rw [natMapGet_natMapDelete_self _ _ idxN]
      symm
      rw [List.find?_eq_none]
      intro r hr
      have := eraseP_no_more (fun r => (A.heap.getD r dummyNode).id) id
        A.order idsN' r hr
      simpa using this
    · rw [natMapGet_natMapDelete_ne _ _ _ hid, idx id]
      symm
      exact find?_eraseP_of_excl A.order
        (fun r => decide ((A.heap.getD r dummyNode).id = id))
        (fun r => decide ((A.heap.getD r dummyNode).id = i))
        (fun r _ hq => by
          simp only [decide_eq_true_eq] at hq
          simp only [decide_eq_false_iff_not]
          intro hp
          rw [hp] at hq
          exact hid hq)
  · exact idxN.sublist (List.Sublist.map _ (natMapDelete_sublist _ _))

theorem arenaInv_add (A : PatchArena) (spec : List DSStructureNode)
    (inv : ArenaInv A spec) (n : DSStructureNode)
    (hn : n.id ∉ spec.map (fun m => m.id)) :
    ArenaInv (applyPatchStep A (.add n))
      (applyOnePatchSpec spec (.add n)) := by
  obtain ⟨abs, idsN, ordN, ordLt, idx, idxN⟩ := inv
  subst abs
  have habs : ∀ r ∈ A.order,
      (A.heap ++ [n]).getD r dummyNode = A.heap.getD r dummyNode :=
    fun r hr => listGetD_append_lt _ _ _ _ (ordLt r hr)
  have hlen : (A.heap ++ [n]).getD A.heap.length dummyNode = n :=
    listGetD_append_self A.heap n dummyNode
  have hordid : ∀ r ∈ A.order, (A.heap.getD r dummyNode).id ≠ n.id := by
    intro r hr he
    exact hn (by
      rw [arenaList, List.map_map]
      exact he ▸ List.mem_map_of_mem _ hr)
  simp only [applyPatchStep, applyOnePatchSpec]
  refine ⟨?_, ?_, ?_, ?_, ?_, ?_⟩
  · show arenaList _ = _
    rw [arenaList]
    show (A.order ++ [A.heap.length]).map
      (fun r => (A.heap ++ [n]).getD r dummyNode) = arenaList A ++ [n]
    rw [List.map_append, arenaList, List.map_congr_left habs]
    simp [hlen]
  · rw [List.map_append]
    simp only [List.map_cons, List.map_nil]
    rw [List.nodup_append]
    exact ⟨idsN, List.nodup_singleton _,
      by simpa [List.disjoint_singleton] using hn⟩
  · rw [List.nodup_append]
    refine ⟨ordN, List.nodup_singleton _, ?_⟩
    simp only [List.disjoint_singleton]
    intro hmem
    exact absurd (ordLt _ hmem) (lt_irrefl _)
  · intro r hr
    rw [List.length_append, List.length_singleton]
    rcases List.mem_append.mp hr with h | h
    · exact Nat.lt_succ_of_lt (ordLt r h)
    · rcases List.mem_singleton.mp h with rfl
      exact Nat.lt_succ_self _
  · intro id
    show natMapGet (natMapSet A.index n.id A.heap.length) id = _
    rw [natMapGet_natMapSet]
    have hcongr :
        (A.order ++ [A.heap.length]).find?
          (fun r => decide (((A.heap ++ [n]).getD r dummyNode).id = id)) =
        (match A.order.find?
            (fun r => decide ((A.heap.getD r dummyNode).id = id)) with
         | some a => some a
         | none =>
           [A.heap.length].find?
             (fun r => decide (((A.heap ++ [n]).getD r dummyNode).id = id))) := by
      rw [find?_append_split]
      rw [find?_congr_mem A.order _ _
        (fun r hr => by rw [habs r hr])]
    rw [hcongr]
    by_cases hid : id = n.id
    · subst hid
      rw [if_pos rfl]
      have hnone : A.order.find?
          (fun r => decide ((A.heap.getD r dummyNode).id = n.id)) = none := by
        rw [List.find?_eq_none]
        intro r hr
        simpa using hordid r hr
      rw [hnone]
      simp [List.find?, hlen]
    · rw [if_neg hid, idx id]
      cases hfind : A.order.find?
          (fun r => decide ((A.heap.getD r dummyNode).id = id)) with
      | some a => rfl
      | none =>
        have hd : decide (n.id = id) = false := by
          simp only [decide_eq_false_iff_not]
          exact fun h => hid h.symm
        simp [List.find?, hlen, hd]
  · exact natMapSet_nodup _ _ _ idxN

theorem arena_fold (patches : List DSVariantStructurePatch) :
    ∀ (A : PatchArena) (spec : List DSStructureNode), ArenaInv A spec →
      wfPatches (spec.map (fun n => n.id)) patches →
      arenaList (patches.foldl applyPatchStep A) =
        applyPatchesSpec spec patches := by
  induction patches with
  | nil =>
    intro A spec inv _
    exact inv.abs
  | cons p rest ih =>
    intro A spec inv hwf
    rw [List.foldl_cons,
      show applyPatchesSpec spec (p :: rest) =
        applyPatchesSpec (applyOnePatchSpec spec p) rest from rfl]
    cases p with
    | update i v =>
      refine ih _ _ (arenaInv_update A spec inv i v) ?_
      rw [show applyOnePatchSpec spec (.update i v) =
        spec.map (fun n => if n.id = i then applyPatchValue n v else n)
        from rfl, spec_ids_update]
      exact hwf
    | remove i =>
      refine ih _ _ (arenaInv_remove A spec inv i) ?_
      rw [show applyOnePatchSpec spec (.remove i) =
        spec.eraseP (fun n => n.id = i) from rfl, spec_ids_eraseP]
      exact hwf
    | add n =>
      obtain ⟨hnotin, hwf'⟩ := hwf
      refine ih _ _ (arenaInv_add A spec inv n hnotin) ?_
      rw [show applyOnePatchSpec spec (.add n) = spec ++ [n] from rfl,
        List.map_append]
      exact hwf'

theorem map_range_getD (base : List DSStructureNode) :
    (List.range base.length).map (fun r => base.getD r dummyNode) = base := by
  induction base with
  | nil => rfl
  | cons a l ih =>
    rw [List.length_cons, List.range_succ_eq_map, List.map_cons,
      List.map_map]
    show a :: (List.range l.length).map
      (fun r => (a :: l).getD (r + 1) dummyNode) = a :: l
    simp only [List.getD_cons_succ]
    rw [ih]

theorem init_index_get_aux (g : Nat → Nat) :
    ∀ n : Nat, ((List.range n).map g).Nodup → ∀ id,
      natMapGet
        ((List.range n).foldl (fun acc r => natMapSet acc (g r) r) []) id =
      (List.range n).find? (fun r => decide (g r = id)) := by
  intro n
  induction n with
  | zero => intro _ id; rfl
  | succ m ih =>
    intro hnodup id
    rw [List.range_succ] at hnodup ⊢
    rw [List.map_append, List.nodup_append] at hnodup
    obtain ⟨hn1, _, hdisj⟩ := hnodup
    have hgm : g m ∉ (List.range m).map g := by
      intro hmem
      exact hdisj hmem (by simp)
    rw [List.foldl_append, List.foldl_cons, List.foldl_nil,
      natMapGet_natMapSet, find?_append_split]
    by_cases hid : id = g m
    · subst hid
      rw [if_pos rfl]
      have hnone : (List.range m).find? (fun r => decide (g r = g m)) =
          none := by
        rw [List.find?_eq_none]
        intro r hr
        simp only [decide_eq_true_eq]
        intro he
        exact hgm (he ▸ List.mem_map_of_mem g hr)
      rw [hnone]
      show some m = List.find? (fun r => decide (g r = g m)) [m]
      rw [show List.find? (fun r => decide (g r = g m)) [m] =
        (if decide (g m = g m) = true then some m else none) from by
          rw [List.find?]
          simp]
      rw [if_pos (by simp)]
    · rw [if_neg hid, ih hn1 id]
      cases hfind : (List.range m).find? (fun r => decide (g r = id)) with
      | some a => rfl
      | none =>
        have hd : decide (g m = id) = false := by
          simp only [decide_eq_false_iff_not]
          exact fun h => hid h.symm
        simp [List.find?, hd]

theorem init_index_nodup (g : Nat → Nat) (l : List Nat) :
    ∀ acc : List (Nat × Nat), (acc.map Prod.fst).Nodup →
      ((l.foldl (fun acc r => natMapSet acc (g r) r) acc).map
        Prod.fst).Nodup := by
  induction l with
  | nil => intro acc h; exact h
  | cons r rest ih =>
    intro acc h
    exact ih _ (natMapSet_nodup acc (g r) r h)

theorem arenaInv_init (base : List DSStructureNode)
    (hnodup : (base.map (fun n => n.id)).Nodup) :
    ArenaInv (initArena base) base := by
  have habs : (List.range base.length).map
      (fun r => base.getD r dummyNode) = base := map_range_getD base
  have hmapg : (List.range base.length).map
      (fun r => (base.getD r dummyNode).id) = base.map (fun n => n.id) := by
    conv_rhs => rw [← habs]
    rw [List.map_map]
    rfl
  refine ⟨habs, hnodup, List.nodup_range _, ?_, ?_, ?_⟩
  · intro r hr
    exact List.mem_range.mp hr
  · intro id
    exact init_index_get_aux (fun r => (base.getD r dummyNode).id)
      base.length (by rw [hmapg]; exact hnodup) id
  · exact init_index_nodup _ _ [] (by simp)

/-- The arena-based (mutating) patch application agrees with the plain
list reading of the patch semantics, whenever node ids are unambiguous
(base ids distinct, every `add` introducing a fresh id). -/
theorem buildStructureFromPatches_eq_spec (base : List DSStructureNode)
    (patches : List DSVariantStructurePatch)
    (hnodup : (base.map (fun n => n.id)).Nodup)
    (hwf : wfPatches (base.map (fun n => n.id)) patches) :
    buildStructureFromPatches base patches = applyPatchesSpec base patches := by
  show arenaList (patches.foldl applyPatchStep (initArena base)) = _
  exact arena_fold patches (initArena base) base (arenaInv_init base hnodup)
    hwf

theorem cloneStructure_eq (l : List DSStructureNode) :
    cloneStructure l = l := List.map_id l

/-- **C3.**  With a patch list declared for the variant key, resolving
twice yields deep-equal results (the code clones the base before
patching, so the pure embedding makes the two calls literally equal),
and each result equals the list obtained by independently cloning the
base structure and applying the variant's patches in array order —
`update` a shallow per-attribute merge into the node with the given id,
`remove` deleting that node, `add` appending a clone — provided ids are
unambiguous (base ids distinct, each `add` fresh), which the claim's
"the node with the given id" reading presumes. -/
theorem C3_resolveStructure_patches (c : LibraryComponent) (k : String)
    (vs : List (String × List DSVariantStructurePatch))
    (ps : List DSVariantStructurePatch)
    (hk : k ≠ "")
    (hvs : c.variantStructures = some vs)
    (hps : recordGet vs k = some ps)
    (hnodup : ((c.structure'.getD []).map (fun n => n.id)).Nodup)
    (hwf : wfPatches ((c.structure'.getD []).map (fun n => n.id)) ps) :
    resolveStructure (some c) (some k) = resolveStructure (some c) (some k) ∧
    resolveStructure (some c) (some k) =
      some (applyPatchesSpec (cloneStructure (c.structure'.getD [])) ps) := by
  refine ⟨rfl, ?_⟩
  have htk : tstr (some k) = true := by simp [tstr, hk]
  rw [cloneStructure_eq,
    ← buildStructureFromPatches_eq_spec _ _ hnodup hwf]
  simp [resolveStructure, htk, hvs, hps]

/-- **C3, witness.** -/
theorem C3_resolveStructure_patches_witness :
    resolveStructure
      (some { structure' := some [{ id := 1, path := "r", name := "r" }],
              variantStructures := some
                [("A", [.update 1 { name := some "r2" },
                        .add { id := 2, path := "r / x", name := "x" },
                        .update 2 { name := some "x2" }])] })
      (some "A") =
    resolveStructure
      (some { structure' := some [{ id := 1, path := "r", name := "r" }],
              variantStructures := some
                [("A", [.update 1 { name := some "r2" },
                        .add { id := 2, path := "r / x", name := "x" },
                        .update 2 { name := some "x2" }])] })
      (some "A") ∧
    resolveStructure
      (some { structure' := some [{ id := 1, path := "r", name := "r" }],
              variantStructures := some
                [("A", [.update 1 { name := some "r2" },
                        .add { id := 2, path := "r / x", name := "x" },
                        .update 2 { name := some "x2" }])] })
      (some "A") =
      some (applyPatchesSpec
        (cloneStructure [{ id := 1, path := "r", name := "r" }])
        [.update 1 { name := some "r2" },
         .add { id := 2, path := "r / x", name := "x" },
         .update 2 { name := some "x2" }]) :=
  C3_resolveStructure_patches _ "A" _ _ (by decide) rfl rfl (by decide)
    (by decide)

/-! ## Snapshot ordering invariant (C4) -/

theorem listGetD_mem (l : List DSStructureNode) (i : Nat)
    (d : DSStructureNode) (h : i < l.length) : l.getD i d ∈ l := by
  induction l generalizing i with
  | nil => simp at h
  | cons x xs ih =>
    cases i with
    | zero => simp
    | succ j =>
      simp only [List.getD_cons_succ]
      exact List.mem_cons_of_mem _ (ih j (by simpa using h))

theorem mem_listGetD (l : List DSStructureNode) (m : DSStructureNode)
    (d : DSStructureNode) (h : m ∈ l) :
    ∃ j, j < l.length ∧ l.getD j d = m := by
  induction l with
  | nil => simp at h
  | cons x xs ih =>
    rcases List.mem_cons.mp h with rfl | h
    · exact ⟨0, by simp, rfl⟩
    · obtain ⟨j, hj, hget⟩ := ih h
      exact ⟨j + 1, by simpa using hj, hget⟩

theorem taskGetD_mem (l : List PTask) (i : Nat) (d : PTask)
    (h : i < l.length) : l.getD i d ∈ l := by
  induction l generalizing i with
  | nil => simp at h
  | cons x xs ih =>
    cases i with
    | zero => simp
    | succ j =>
      simp only [List.getD_cons_succ]
      exact List.mem_cons_of_mem _ (ih j (by simpa using h))

theorem spawnChildren_le (children : List SceneTree) (pp : String)
    (pid : Nat) (pv : Bool) (n0 : Nat) :
    n0 ≤ (spawnChildren children pp pid pv n0).2 := by
  induction children generalizing n0 with
  | nil => exact Nat.le_refl _
  | cons c rest ih =>
    simp only [spawnChildren]
    exact Nat.le_trans (Nat.le_succ _) (ih (n0 + 1))

theorem spawnChildren_mem (children : List SceneTree) (pp : String)
    (pid : Nat) (pv : Bool) (n0 : Nat) (task : PTask)
    (h : task ∈ (spawnChildren children pp pid pv n0).1) :
    task.parentId = some pid ∧ n0 ≤ task.id ∧
      task.id < (spawnChildren children pp pid pv n0).2 := by
  induction children generalizing n0 with
  | nil => simp [spawnChildren] at h
  | cons c rest ih =>
    simp only [spawnChildren] at h ⊢
    rcases List.mem_cons.mp h with rfl | h
    · refine ⟨rfl, Nat.le_refl _, ?_⟩
      exact Nat.lt_of_lt_of_le (Nat.lt_succ_self _)
        (spawnChildren_le rest pp pid pv (n0 + 1))
    · obtain ⟨h1, h2, h3⟩ := ih (n0 + 1) h
      exact ⟨h1, Nat.le_trans (Nat.le_succ _) h2, h3⟩


/-- The in-flight invariant of the snapshot walk: every record already
emitted points (via `parentId`) to an earlier record with a smaller id,
every suspended task's parent is already emitted with a smaller id, and
the id counter dominates every id seen so far. -/
structure WalkInv (s : WalkState) : Prop where
  listOk : ∀ i, i < s.list.length → ∀ p,
    (s.list.getD i dummyNode).parentId = some p →
    (∃ j, j < i ∧ (s.list.getD j dummyNode).id = p) ∧
      p < (s.list.getD i dummyNode).id
  pendOk : ∀ t ∈ s.pending, ∀ p, t.parentId = some p →
    (∃ m ∈ s.list, m.id = p) ∧ p < t.id
  listLt : ∀ n ∈ s.list, n.id < s.nextId
  pendLt : ∀ t ∈ s.pending, t.id < s.nextId

theorem walkInv_step (s : WalkState) (choice : Nat) (inv : WalkInv s) :
    WalkInv (walkStep s choice) := by
  obtain ⟨listOk, pendOk, listLt, pendLt⟩ := inv
  cases hp : s.pending with
  | nil =>
    simp only [walkStep, hp]
    exact ⟨listOk, pendOk, listLt, pendLt⟩
  | cons t0 rest =>
    rw [hp] at pendOk pendLt
    simp only [walkStep, hp]
    set P := t0 :: rest with hP
    set I := choice % P.length with hI
    set T := P.getD I defaultTask with hT
    have hIlt : I < P.length := Nat.mod_lt _ (by rw [hP]; simp)
    have hT_mem : T ∈ P := taskGetD_mem _ _ _ hIlt
    have hT_lt : T.id < s.nextId := pendLt T hT_mem
    set spawned := spawnChildren T.tree.children (mkSnap T).path T.id
      (mkSnap T).visible s.nextId with hspawned
    have hle : s.nextId ≤ spawned.2 := spawnChildren_le _ _ _ _ _
    have hsnap_parent : (mkSnap T).parentId = T.parentId := rfl
    have hsnap_id : (mkSnap T).id = T.id := rfl
    refine ⟨?_, ?_, ?_, ?_⟩
    · intro i hi p hpar
      rw [List.length_append, List.length_singleton] at hi
      by_cases hilt : i < s.list.length
      · rw [listGetD_append_lt _ _ _ _ hilt] at hpar ⊢
        obtain ⟨⟨j, hj, hjid⟩, hlt⟩ := listOk i hilt p hpar
        refine ⟨⟨j, hj, ?_⟩, hlt⟩
        rw [listGetD_append_lt _ _ _ _ (Nat.lt_trans hj hilt)]
        exact hjid
      · have hieq : i = s.list.length := by omega
        subst hieq
        rw [listGetD_append_self] at hpar ⊢
        rw [hsnap_parent] at hpar
        obtain ⟨⟨m, hm_mem, hm_id⟩, hlt⟩ := pendOk T hT_mem p hpar
        obtain ⟨j, hj, hget⟩ := mem_listGetD s.list m dummyNode hm_mem
        refine ⟨⟨j, hj, ?_⟩, ?_⟩
        · rw [listGetD_append_lt _ _ _ _ hj, hget]
          exact hm_id
        · rw [hsnap_id]
          exact hlt
    · intro task htask p hpar
      rcases List.mem_append.mp htask with h | h
      · have hmem : task ∈ P := (List.eraseIdx_sublist P I).mem h
        obtain ⟨⟨m, hm_mem, hm_id⟩, hlt⟩ := pendOk task hmem p hpar
        exact ⟨⟨m, List.mem_append_left _ hm_mem, hm_id⟩, hlt⟩
      · obtain ⟨hpid, hge, _⟩ := spawnChildren_mem _ _ _ _ _ _ h
        rw [hpid] at hpar
        rcases Option.some.inj hpar with rfl
        refine ⟨⟨mkSnap T, List.mem_append_right _ (by simp), hsnap_id⟩, ?_⟩
        exact Nat.lt_of_lt_of_le hT_lt hge
    · intro n hn
      rcases List.mem_append.mp hn with h | h
      · exact Nat.lt_of_lt_of_le (listLt n h) hle
      · rcases List.mem_singleton.mp h with rfl
        rw [hsnap_id]
        exact Nat.lt_of_lt_of_le hT_lt hle
    · intro task htask
      rcases List.mem_append.mp htask with h | h
      · exact Nat.lt_of_lt_of_le (pendLt task ((List.eraseIdx_sublist P I).mem h))
          hle
      · exact (spawnChildren_mem _ _ _ _ _ _ h).2.2

theorem walkInv_run (fuel : Nat) (sched : Nat → Nat) (s : WalkState)
    (inv : WalkInv s) : WalkInv (runWalk fuel sched s) := by
  induction fuel generalizing s with
  | zero => exact inv
  | succ m ih =>
    rw [runWalk]
    cases hp : s.pending with
    | nil => exact inv
    | cons t0 rest =>
      exact ih _ (walkInv_step s (sched m) inv)

/-- **C4.**  For every input tree and every promise schedule, in the list
`snapshotTree` returns every node's non-null `parentId` equals the id of
a node that appears strictly earlier in the list, and `parentId < id`
holds for every non-root node: ids are handed out at call entry (starting
at 1), a node is pushed before any of its children's walks are spawned,
and children only ever point at an already-pushed parent. -/
theorem C4_snapshot_parent_order (root : SceneTree) (sched : Nat → Nat)
    (i : Nat) (hi : i < (snapshotTree sched root).length) (p : Nat)
    (hp : ((snapshotTree sched root).getD i dummyNode).parentId = some p) :
    (∃ j, j < i ∧ ((snapshotTree sched root).getD j dummyNode).id = p) ∧
      p < ((snapshotTree sched root).getD i dummyNode).id := by
  have hinit : WalkInv
      { nextId := 2, list := [],
        pending := [{ tree := root, parentPath := "", parentId := none,
                      id := 1, visible := root.selfVisible }] } := by
    refine ⟨?_, ?_, ?_, ?_⟩
    · intro i hi
      simp at hi
    · intro t ht p hpar
      rcases List.mem_singleton.mp ht with rfl
      simp at hpar
    · intro n hn
      simp at hn
    · intro t ht
      rcases List.mem_singleton.mp ht with rfl
      exact Nat.one_lt_two
  have hrun := walkInv_run root.size sched _ hinit
  exact hrun.listOk i hi p hp

/-- **C4, witness.** -/
theorem C4_snapshot_parent_order_witness :
    (∃ j, j < 1 ∧
      ((snapshotTree (fun _ => 0)
          (.mk "root" true [.mk "a" true [], .mk "b" true []])).getD j
        dummyNode).id =
        ((snapshotTree (fun _ => 0)
            (.mk "root" true [.mk "a" true [], .mk "b" true []])).getD 1
          dummyNode).parentId.getD 0) ∧
      ((snapshotTree (fun _ => 0)
          (.mk "root" true [.mk "a" true [], .mk "b" true []])).getD 1
        dummyNode).parentId.getD 0 <
        ((snapshotTree (fun _ => 0)
            (.mk "root" true [.mk "a" true [], .mk "b" true []])).getD 1
          dummyNode).id :=
  C4_snapshot_parent_order (.mk "root" true [.mk "a" true [], .mk "b" true []])
    (fun _ => 0) 1 (by decide) 1 (by decide)
